import Mathlib

/-!
# status-code: status codes, error domains and cross-domain equivalence

A shallow embedding of `include/status_code.hpp`, `include/win32_code.hpp` and
`include/nt_code.hpp`.

* A domain (`status_code_domain`) is its 64-bit identity together with its table of
  virtual functions (`_failure`, `_equivalent`, `_generic_code`, `_message`).
* A message fetch is a function of the answers of the platform calls it makes, and gives
  the message reference together with the log of the heap.
* A status code is a nullable domain pointer plus the value stored behind the
  type-erased base (`status_code<void>` followed by `_value` of the typed code).
* `win32::DWORD` is `unsigned long` and `win32::NTSTATUS` is `long`, both 32 bits wide on
  the only platform the headers compile for; a `DWORD` is a `Nat` below `2 ^ 32`, an
  `NTSTATUS` an `Int`, and the casts between them are written with an explicit `% 2 ^ 32`.
-/

namespace system_error2

/-! ## What a domain sees of a code -/

/-- What a virtual function of a domain reads through a `const status_code<void> &` of a
non-empty code: the identity of the code's domain (all that `code.domain() == x` compares)
and the value stored in the typed code (what `static_cast<const T &>(code).value()`
reads). -/
structure code_ref where
  domain_id : Nat
  value : Int

/-! ## Message references (`string_ref` of win32_code.hpp and nt_code.hpp)

The platform calls of a message fetch (`FormatMessageW`, `malloc`, `WideCharToMultiByte`,
`GetLastError`, `calloc`) are external; their answers are the input `platform` of the
model. The heap is the log of the blocks obtained and released, plus the counter stored
in each `_allocated_msg`. -/

/-- The bytes of a string literal (without the terminating NUL). -/
def literal (s : String) : List Nat := s.toList.map Char.toNat

/-- Where a `const char *` points: at a string literal, or at the block that `malloc` or
`calloc` returned at an address. -/
inductive pointer
  | literal (s : String)
  | block (address : Nat)
deriving DecidableEq

/-- A message reference: `_begin`, the bytes that were stored from `_begin` on (up to the
NUL that ended them when they were stored), `_end` as its distance from `_begin`, and
`_msg()`, that is `_state[0]` read as a pointer to the `_allocated_msg` counter block
(`none` is `nullptr`). -/
structure string_ref where
  _begin : pointer
  bytes : List Nat
  _end : Int
  _msg : Option Nat
deriving DecidableEq

/-- The text of a message reference: the bytes of the range from `_begin` to `_end`. -/
def string_ref.text (r : string_ref) : List Nat := r.bytes.take r._end.toNat

/-- Modelled from the spec: the constructor `string_ref(const char *)` of the absent base
class in `status_code_domain.hpp`, spec 3: a reference in the "*static* (no-op release,
e.g. a string literal)" ownership mode, ranging over the literal up to its NUL. -/
def string_ref.of_literal (s : String) : string_ref :=
  ⟨pointer.literal s, literal s, (literal s).length, none⟩

/-- An access to a byte through `_end`: a read `_end[-1]` of the trimming loop, or the
store `*_end = 0` that follows it (`stored` is the value), with the buffer `p` that `_begin`
points at and the distance of the byte from the start of that buffer. A negative distance
is a byte before the buffer. -/
structure access where
  p : Nat
  offset : Int
  stored : Option Nat
deriving DecidableEq

/-- The heap as a message reference touches it: the addresses returned by `malloc` and
`calloc` in order, the pointers passed to `free` and `delete` in order, the `count`
member of the `_allocated_msg` at each address, and the bytes read and written through
`_end` in order. -/
structure heap where
  allocated : List Nat
  freed : List pointer
  count : Nat → Nat
  accessed : List access

/-- The heap before a message fetch. -/
def heap.empty : heap := ⟨[], [], fun _ => 0, []⟩

/-- A block has been returned by `malloc` or `calloc`. -/
def heap.alloc (h : heap) (p : Nat) : heap := { h with allocated := h.allocated ++ [p] }

/-- A pointer has been passed to `free` or `delete`. -/
def heap.free (h : heap) (p : pointer) : heap := { h with freed := h.freed ++ [p] }

/-- The bytes of the buffer `p` at the given distances from its start have been read, in
this order. -/
def heap.read (h : heap) (p : Nat) (offsets : List Int) : heap :=
  { h with accessed := h.accessed ++ offsets.map (fun i => ⟨p, i, none⟩) }

/-- The value `v` has been stored in the byte of the buffer `p` at the given distance from
its start. -/
def heap.store (h : heap) (p : Nat) (offset : Int) (v : Nat) : heap :=
  { h with accessed := h.accessed ++ [⟨p, offset, some v⟩] }

/-- A store to the `count` member of the `_allocated_msg` at address `m`. -/
def heap.store_count (h : heap) (m v : Nat) : heap :=
  { h with count := fun a => if a = m then v else h.count a }

/-- The outcome of `WideCharToMultiByte`: a nonzero return with the bytes it stored in the
buffer before the terminating NUL (so `strchr(p, 0)` is `p` plus their number), or a zero
return with the value `GetLastError()` reports afterwards. -/
inductive transcode_result
  | written (text : List Nat)
  | failed (last_error : Nat)
deriving DecidableEq

/-- The platform's answers during one pass of the `for(;;)` loop: what `malloc` returns for
the requested size (`none` is `nullptr`), the bytes in memory before the returned block
(nearest first: `p[-1]`, `p[-2]`, ...), and what `WideCharToMultiByte` answers for the
buffer size it is given. -/
structure attempt where
  malloc : Nat → Option Nat
  before : List Nat
  WideCharToMultiByte : Nat → transcode_result

/-- The platform's answers during one message fetch: the length `FormatMessageW` returns
for a code, the answers of the successive passes of the loop, and what `calloc` returns.
The list of passes is finite: a fetch that is still retrying after the last one has no
result. -/
structure platform where
  FormatMessageW : Int → Nat
  attempts : List attempt
  calloc : Option Nat

/-- The result of a message fetch: the reference and the heap it leaves. -/
structure message_result where
  ref : string_ref
  heap : heap

/-- The constant `0x7a /*ERROR_INSUFFICIENT_BUFFER*/`. -/
def ERROR_INSUFFICIENT_BUFFER : Nat := 0x7a

/-- The initial buffer size `wlen + (wlen >> 1)`, computed in the 32-bit `DWORD`
(win32_code.hpp:115, nt_code.hpp:120). -/
def initial_allocation (wlen : Nat) : Nat := (wlen + wlen / 2) % 2 ^ 32

/-- The grown buffer size of `allocation += allocation >> 2`, computed in `size_t`
(win32_code.hpp:135, nt_code.hpp:148), 64 bits wide. -/
def next_allocation (allocation : Nat) : Nat := (allocation + allocation / 4) % 2 ^ 64

/-- The trimming loop `while(_end[-1] == 10 || _end[-1] == 13) --_end;`
(win32_code.hpp:127-128, nt_code.hpp:138-141): `behind` lists the bytes below `_end`,
nearest first, and the result is the final `_end`, as a distance from `_begin`. -/
def trim_loop : List Nat → Int → Int
  | [], _end => _end
  | b :: behind, _end =>
    if b == 10 || b == 13 then trim_loop behind (_end - 1) else _end

/-- The positions, as distances from `_begin`, that the trimming loop reads through
`_end[-1]`. -/
def trim_reads : List Nat → Int → List Int
  | [], _ => []
  | b :: behind, _end =>
    (_end - 1) :: (if b == 10 || b == 13 then trim_reads behind (_end - 1) else [])

/-- How the `for(;;)` loop is left: by `break` with the buffer `p`, the bytes before it,
the transcoded bytes and the heap, or by `goto failure` with the heap. -/
inductive loop_exit
  | converted (p : Nat) (before : List Nat) (text : List Nat) (h : heap)
  | failure (h : heap)

/-- The `for(;;)` loop of the constructor (win32_code.hpp:117-139, nt_code.hpp:126-152),
up to and excluding the trimming. -/
def fetch_loop : List attempt → Nat → heap → Option loop_exit
  | [], _, _ => none
  | a :: rest, allocation, h =>
    match a.malloc allocation with
    | none => some (loop_exit.failure h)
    | some p =>
      match a.WideCharToMultiByte allocation with
      | transcode_result.written text =>
        some (loop_exit.converted p a.before text (h.alloc p))
      | transcode_result.failed last_error =>
        if last_error == ERROR_INSUFFICIENT_BUFFER then
          fetch_loop rest (next_allocation allocation) ((h.alloc p).free (pointer.block p))
        else
          some (loop_exit.failure ((h.alloc p).free (pointer.block p)))

/-- The `failure:` label of the constructor (win32_code.hpp:148-151, nt_code.hpp:161-164):
`_msg() = nullptr`, `_begin` at the literal, `_end = strchr(_begin, 0)`. -/
def failure_ref : string_ref :=
  ⟨pointer.literal "failed to get message from system",
   literal "failed to get message from system",
   (literal "failed to get message from system").length, none⟩

/-- Embeds `_win32_code_domain::string_ref::string_ref(win32::DWORD)`
(win32_code.hpp:109-152). After a transcoding that succeeded, the trimming loop reads
through `_end[-1]` and `*_end = 0` stores the new terminator, wherever the loop has left
`_end`. The counter block comes zeroed from `calloc` and is then incremented to 1. Without a result (`none`) the loop is still retrying after the last
pass the platform describes. -/
def _win32_code_domain.string_ref.construct (P : platform) (c : Nat) :
    Option message_result :=
  let wlen := P.FormatMessageW c
  if wlen = 0 then some ⟨failure_ref, heap.empty⟩
  else
    match fetch_loop P.attempts (initial_allocation wlen) heap.empty with
    | none => none
    | some (loop_exit.failure h) => some ⟨failure_ref, h⟩
    | some (loop_exit.converted p before text h) =>
      let _end := trim_loop (text.reverse ++ before) text.length
      let h1 := (h.read p (trim_reads (text.reverse ++ before) text.length)).store p _end 0
      match P.calloc with
      | none => some ⟨failure_ref, h1.free (pointer.block p)⟩
      | some m =>
        some ⟨⟨pointer.block p, text, _end, some m⟩,
              ((h1.alloc m).store_count m 0).store_count m 1⟩

/-- Embeds `_nt_code_domain::string_ref::string_ref(win32::NTSTATUS)`
(nt_code.hpp:114-165); the buffer size is computed before the test of `wlen`. -/
def _nt_code_domain.string_ref.construct (P : platform) (c : Int) :
    Option message_result :=
  let wlen := P.FormatMessageW c
  let allocation := initial_allocation wlen
  if wlen = 0 then some ⟨failure_ref, heap.empty⟩
  else
    match fetch_loop P.attempts allocation heap.empty with
    | none => none
    | some (loop_exit.failure h) => some ⟨failure_ref, h⟩
    | some (loop_exit.converted p before text h) =>
      let _end := trim_loop (text.reverse ++ before) text.length
      let h1 := (h.read p (trim_reads (text.reverse ++ before) text.length)).store p _end 0
      match P.calloc with
      | none => some ⟨failure_ref, h1.free (pointer.block p)⟩
      | some m =>
        some ⟨⟨pointer.block p, text, _end, some m⟩,
              ((h1.alloc m).store_count m 0).store_count m 1⟩

/-- Embeds `_win32_code_domain::string_ref::_copy` (win32_code.hpp:88-96): the counter is
incremented in the 32-bit `std::atomic<unsigned>`, the destination is constructed from
the same members. With `assertions`, `assert(count != 0)` on the previous counter value is
compiled in, and a failed assertion leaves no result. -/
def _win32_code_domain.string_ref._copy (assertions : Bool) (self : string_ref) (h : heap) :
    Option (string_ref × heap) :=
  match self._msg with
  | some m =>
    let count := h.count m
    let h1 := h.store_count m ((count + 1) % 2 ^ 32)
    if assertions && count == 0 then none else some (self, h1)
  | none => some (self, h)

/-- Embeds `_win32_code_domain::string_ref::_move` (win32_code.hpp:97-104): the
destination, constructed from the members of the source, the source afterwards, with
`_msg()` set to `nullptr` if it was not, and the heap, which the function does not
touch. -/
def _win32_code_domain.string_ref._move (self : string_ref) (h : heap) :
    string_ref × string_ref × heap :=
  match self._msg with
  | some _ => (self, { self with _msg := none }, h)
  | none => (self, self, h)

/-- Embeds `_win32_code_domain::string_ref::~string_ref` (win32_code.hpp:155-166): the
counter is decremented in the 32-bit `std::atomic<unsigned>`; when its previous value was
1, `_begin` is freed and the counter block deleted. -/
def _win32_code_domain.string_ref.destroy (self : string_ref) (h : heap) : heap :=
  match self._msg with
  | some m =>
    let count := h.count m
    let h1 := h.store_count m ((count + 2 ^ 32 - 1) % 2 ^ 32)
    if count == 1 then (h1.free self._begin).free (pointer.block m) else h1
  | none => h

/-! ## Domains -/

/-- A domain object: the identity handed to the `status_code_domain` base constructor and
the virtual functions each domain overrides; `_message` takes the answers of the platform
and gives the reference with the heap it leaves. -/
structure status_code_domain where
  id : Nat
  _failure : code_ref → Bool
  _equivalent : code_ref → code_ref → Bool
  _generic_code : code_ref → Int
  _message : code_ref → platform → Option message_result

/-- The parts of the repository that the headers include but that are not among the
sources: the identity of the generic domain (`generic_code.hpp`) and the three `switch`
bodies `detail/win32_code_to_generic_code.ipp`, `detail/nt_code_to_generic_code.ipp` and
`detail/nt_code_to_win32_code.ipp`, each a list of `case k: return r;` read as a partial
map from the switched value to the returned one, and the message texts of the generic
domain. They are parameters of the embedding. -/
structure Env where
  generic_id : Nat
  generic_message : Int → String
  win32_code_to_generic_code : Nat → Option Int
  nt_code_to_generic_code : Nat → Option Int
  nt_code_to_win32_code : Nat → Option Nat

/-- The identity passed by `_win32_code_domain()` to its base (win32_code.hpp:172). -/
def win32_id : Nat := 0x8cd18ee72d680f1b

/-- The identity passed by `_nt_code_domain()` to its base (nt_code.hpp:170). -/
def nt_id : Nat := 0x93f3b4487e4af25b

/-- Modelled from the spec: `errc::unknown` of the absent `generic_code.hpp`, the
"unknown" sentinel of the generic domain, "-1 sentinel" in the spec's words and the value
the translation functions return for an unmapped code. -/
def errc_unknown : Int := -1

/-- The conversion `static_cast<unsigned>(c)` of a 32-bit `NTSTATUS`. -/
def to_unsigned (c : Int) : Nat := (c % 2 ^ 32).toNat

/-- The value `static_cast<win32::DWORD>(-1)`. -/
def dword_minus_one : Nat := to_unsigned (-1)

/-! ## `_win32_code_domain` (win32_code.hpp) -/

/-- Embeds `_win32_code_domain::_win32_code_to_errno` (win32_code.hpp:64-73). -/
def _win32_code_domain._win32_code_to_errno (E : Env) (c : Nat) : Int :=
  if c = 0 then 0
  else
    match E.win32_code_to_generic_code c with
    | some r => r
    | none => -1

/-- Embeds `_win32_code_domain::_failure` (win32_code.hpp:186-190). -/
def _win32_code_domain._failure (code : code_ref) : Bool :=
  code.value != 0

/-- Embeds `_win32_code_domain::_equivalent` (win32_code.hpp:191-207): the branch for the
own domain returns the comparison of the values; the branch for the generic domain returns
true when the values agree and otherwise falls through to the final `return false`. -/
def _win32_code_domain._equivalent (E : Env) (code1 code2 : code_ref) : Bool :=
  if code2.domain_id == win32_id then
    code1.value == code2.value
  else if code2.domain_id == E.generic_id
      && code2.value == _win32_code_domain._win32_code_to_errno E code1.value.toNat then
    true
  else
    false

/-- Embeds `_win32_code_domain::_generic_code` (win32_code.hpp:208-213): the value of the returned
generic code. -/
def _win32_code_domain._generic_code (E : Env) (code : code_ref) : Int :=
  _win32_code_domain._win32_code_to_errno E code.value.toNat

/-- Embeds `_win32_code_domain::_message` (win32_code.hpp:214-219). -/
def _win32_code_domain._message (code : code_ref) (P : platform) : Option message_result :=
  _win32_code_domain.string_ref.construct P code.value.toNat

/-- The singleton `win32_code_domain` (win32_code.hpp:228). -/
def win32_code_domain (E : Env) : status_code_domain where
  id := win32_id
  _failure := _win32_code_domain._failure
  _equivalent := _win32_code_domain._equivalent E
  _generic_code := _win32_code_domain._generic_code E
  _message := _win32_code_domain._message

/-! ## `_nt_code_domain` (nt_code.hpp) -/

/-- Embeds `_nt_code_domain::_nt_code_to_errno` (nt_code.hpp:60-71). -/
def _nt_code_domain._nt_code_to_errno (E : Env) (c : Int) : Int :=
  if c ≥ 0 then 0
  else
    match E.nt_code_to_generic_code (to_unsigned c) with
    | some r => r
    | none => -1

/-- Embeds `_nt_code_domain::_nt_code_to_win32_code` (nt_code.hpp:72-83). -/
def _nt_code_domain._nt_code_to_win32_code (E : Env) (c : Int) : Nat :=
  if c ≥ 0 then 0
  else
    match E.nt_code_to_win32_code (to_unsigned c) with
    | some r => r
    | none => dword_minus_one

/-- Embeds `_nt_code_domain::_failure` (nt_code.hpp:182-186). -/
def _nt_code_domain._failure (code : code_ref) : Bool :=
  decide (code.value < 0)

/-- Embeds `_nt_code_domain::_equivalent` (nt_code.hpp:187-213): the branch for the own
domain returns the comparison of the values; the branches for the generic and for the
win32 domain return true when the values agree and otherwise fall through, down to the
final `return false`. -/
def _nt_code_domain._equivalent (E : Env) (code1 code2 : code_ref) : Bool :=
  if code2.domain_id == nt_id then
    code1.value == code2.value
  else if code2.domain_id == E.generic_id
      && code2.value == _nt_code_domain._nt_code_to_errno E code1.value then
    true
  else if code2.domain_id == win32_id
      && code2.value == (_nt_code_domain._nt_code_to_win32_code E code1.value : Int) then
    true
  else
    false

/-- Embeds `_nt_code_domain::_generic_code` (nt_code.hpp:214-219): the value of the returned
generic code. -/
def _nt_code_domain._generic_code (E : Env) (code : code_ref) : Int :=
  _nt_code_domain._nt_code_to_errno E code.value

/-- Embeds `_nt_code_domain::_message` (nt_code.hpp:220-225). -/
def _nt_code_domain._message (code : code_ref) (P : platform) : Option message_result :=
  _nt_code_domain.string_ref.construct P code.value

/-- The singleton `nt_code_domain` (nt_code.hpp:234). -/
def nt_code_domain (E : Env) : status_code_domain where
  id := nt_id
  _failure := _nt_code_domain._failure
  _equivalent := _nt_code_domain._equivalent E
  _generic_code := _nt_code_domain._generic_code E
  _message := _nt_code_domain._message

/-! ## The generic domain (absent `generic_code.hpp`) -/

/-- Modelled from the spec: the generic domain of the absent `generic_code.hpp`. Spec 4.5:
"its `as_generic` is identity; values ≠ 0 denote failure"; spec 8: a generic code against
a code of another domain has "`strictly_equivalent() == false` (different domains)", and
within a domain strict equivalence is equality of values. Its message is a static
reference to the text of the value. -/
def generic_code_domain (E : Env) : status_code_domain where
  id := E.generic_id
  _failure := fun code => code.value != 0
  _equivalent := fun code1 code2 =>
    if code2.domain_id == E.generic_id then code1.value == code2.value else false
  _generic_code := fun code => code.value
  _message := fun code _ =>
    some ⟨string_ref.of_literal (E.generic_message code.value), heap.empty⟩

/-! ## `status_code` (status_code.hpp) -/

/-- A status code as seen through `status_code<void>`: the nullable `_domain` pointer
(status_code.hpp:61) and the `_value` member of the typed code (status_code.hpp:129). -/
structure status_code where
  _domain : Option status_code_domain
  _value : Int

namespace status_code

/-- Default construction to empty (status_code.hpp:132-133): `_domain{nullptr}`,
`_value{}`. -/
def default_constructed : status_code := ⟨none, 0⟩

/-- Explicit construction from a `value_type` (status_code.hpp:151-156):
`_base(domain_type::get()), _value(v)`. -/
def of_value (d : status_code_domain) (v : Int) : status_code := ⟨some d, v⟩

/-- The code passed by reference to a virtual function of domain `d`. -/
def ref (d : status_code_domain) (c : status_code) : code_ref := ⟨d.id, c._value⟩

/-- Embeds `status_code<void>::empty` (status_code.hpp:87). -/
def empty (c : status_code) : Bool :=
  match c._domain with
  | none => true
  | some _ => false

/-- Embeds `status_code<void>::success` (status_code.hpp:92). -/
def success (c : status_code) : Bool :=
  match c._domain with
  | some d => !d._failure (ref d c)
  | none => false

/-- Embeds `status_code<void>::failure` (status_code.hpp:94). -/
def failure (c : status_code) : Bool :=
  match c._domain with
  | some d => d._failure (ref d c)
  | none => false

/-- Embeds `status_code<void>::strictly_equivalent` (status_code.hpp:96-105). -/
def strictly_equivalent (c o : status_code) : Bool :=
  match c._domain, o._domain with
  | some d, some od => d._equivalent (ref d c) (ref od o)
  | none, none => true
  | _, _ => false

/-- Modelled from the spec: the conversion `as_generic` of a non-empty code in the
absent `status_code_domain.hpp`/`generic_code.hpp`, spec 4.2: the domain's "best-effort
lossy mapping of this domain's value to the generic domain's closed enumeration"; an empty
code has no domain to convert it. -/
def as_generic (c : status_code) : Option Int :=
  match c._domain with
  | some d => some (d._generic_code (ref d c))
  | none => none

/-- Modelled from the spec: `status_code<void>::equivalent`, declared at
status_code.hpp:106-107 ("equivalent, by any means, to another code in another domain")
and defined in the absent `generic_code.hpp`. Spec 4.4: "two codes are equivalent iff they
are strictly equivalent, OR both convert (via `as_generic`) to the same non-"unknown"
generic value", a relation the same passage calls symmetric while strict equivalence is
"evaluated asymmetrically (domain of the left operand governs the rule)": the two codes
are strictly equivalent when the strict test holds with either of them on the left. -/
def equivalent (c o : status_code) : Bool :=
  c.strictly_equivalent o || o.strictly_equivalent c ||
    (match c.as_generic, o.as_generic with
     | some g1, some g2 => g1 == g2 && g1 != errc_unknown
     | _, _ => false)

end status_code

/-- A `win32_code` built by the explicit value constructor from the `DWORD` `v`. -/
def win32_code (E : Env) (v : Nat) : status_code :=
  status_code.of_value (win32_code_domain E) (v : Int)

/-- An `nt_code` built by the explicit value constructor from the `NTSTATUS` `v`. -/
def nt_code (E : Env) (v : Int) : status_code :=
  status_code.of_value (nt_code_domain E) v

/-- A `generic_code` built by the explicit value constructor from the `errc` with integer
value `v`. -/
def generic_code (E : Env) (v : Int) : status_code :=
  status_code.of_value (generic_code_domain E) v

/-- Modelled from the spec: an instance of the absent parts holding only the table
entries that the scenarios of spec 8 name: the OS-error value 2 that translates to generic
value 2, and the kernel "access denied" value (0xC0000022) with its OS-error (5) and
generic (13) counterparts. The generic identity is any value other than the two of the
sources, and the generic messages are the usual texts of these values. -/
def scenario_env : Env where
  generic_id := 0x746d6354f4f733e9
  generic_message := fun v =>
    if v = 0 then "Success" else if v = 2 then "No such file or directory"
    else if v = 13 then "Permission denied" else "unknown"
  win32_code_to_generic_code := fun c =>
    if c = 2 then some 2 else if c = 5 then some 13 else none
  nt_code_to_generic_code := fun c => if c = 0xC0000022 then some 13 else none
  nt_code_to_win32_code := fun c => if c = 0xC0000022 then some 5 else none


/-! ## Messages of a status code (status_code.hpp) -/

/-- Embeds `status_code<void>::message` (status_code.hpp:89-90). -/
def status_code.message (c : status_code) (P : platform) : Option message_result :=
  match c._domain with
  | some d => d._message (status_code.ref d c) P
  | none => some ⟨string_ref.of_literal "(empty)", heap.empty⟩

/-- Embeds `status_code<DomainType>::message` (status_code.hpp:181-182) of the typed code
of domain `D`: `domain()` casts `_domain` to the domain type, whose `_message` is called on
the code; the cast of the returned reference up to the string reference of the domain
keeps its members. -/
def status_code.message_typed (D : status_code_domain) (c : status_code) (P : platform) :
    Option message_result :=
  match c._domain with
  | some d => D._message ⟨d.id, c._value⟩ P
  | none => some ⟨string_ref.of_literal "(empty)", heap.empty⟩

/-! ## Type erasure (status_code.hpp)

`reinterpret_cast` reads the object representation, so the codes of this section carry
their value as the list of its bytes, in address order. -/

/-- A status code with `_value` as its object representation: the `sizeof(value_type)`
bytes of a typed code, or the `sizeof(ErasedType)` bytes of an erased code. -/
structure status_code_repr where
  _domain : Option status_code_domain
  _value : List Nat

namespace status_code_repr

/-- Embeds `status_code<void>::empty` (status_code.hpp:87) for a code of this section. -/
def empty (c : status_code_repr) : Bool :=
  match c._domain with
  | none => true
  | some _ => false

/-- Explicit construction from a `value_type` (status_code.hpp:151-156). -/
def of_value (D : status_code_domain) (value : List Nat) : status_code_repr :=
  ⟨some D, value⟩

/-- Embeds `status_code<erased<ErasedType>>::status_code(const status_code<DomainType> &)`
(status_code.hpp:233-238): `_base(v)` copies the domain pointer, and the value is read
through `reinterpret_cast<const value_type &>(v.value())`, that is `sizeof_erased` bytes
from the address of the typed value on, of which those past the typed value are the
bytes `following` it in memory. -/
def erase (sizeof_erased : Nat) (following : List Nat) (v : status_code_repr) :
    status_code_repr :=
  ⟨v._domain, (v._value ++ following).take sizeof_erased⟩

/-- The integer with a given object representation on a little-endian machine. -/
def le_value : List Nat → Nat
  | [] => 0
  | b :: bs => b + 256 * le_value bs

/-- The object representation in `n` bytes of an unsigned integer on a little-endian
machine. -/
def le_bytes : Nat → Nat → List Nat
  | 0, _ => []
  | n + 1, v => v % 256 :: le_bytes n (v / 256)

/-- Embeds `status_code<erased<ErasedType>>::value` (status_code.hpp:239-240): the stored
integer, read as unsigned. -/
def value (v : status_code_repr) : Nat := le_value v._value

/-- Embeds `status_code<DomainType>::status_code(const status_code<erased<ErasedType>> &)`
(status_code.hpp:157-169): the value constructor applied to
`reinterpret_cast<const value_type &>(v._value)`, the first `sizeof_value` bytes of the
erased value. With `assertions` (C++14 or later, `NDEBUG` not defined) the body evaluates
`assert(v.domain() == domain())`, which compares the identities of the two domains; a
failed assertion, or the dereference of the null domain pointer of an empty `v`, leaves
no result. -/
def of_erased (assertions : Bool) (D : status_code_domain) (sizeof_value : Nat)
    (v : status_code_repr) : Option status_code_repr :=
  let c := of_value D (v._value.take sizeof_value)
  if assertions then
    match v._domain with
    | some d => if d.id == D.id then some c else none
    | none => none
  else some c

end status_code_repr

/-! ## The life of a shared message reference -/

/-- A step in the life of the holders of one message: a holder is copied, or destroyed. -/
inductive lifecycle_op
  | copy (holder : Nat)
  | destroy (holder : Nat)

/-- Whether a step is a copy. -/
def lifecycle_op.is_copy : lifecycle_op → Bool
  | lifecycle_op.copy _ => true
  | lifecycle_op.destroy _ => false

/-- Whether a step is a destruction. -/
def lifecycle_op.is_destroy : lifecycle_op → Bool
  | lifecycle_op.copy _ => false
  | lifecycle_op.destroy _ => true

/-- The live holders and the heap. -/
structure lifecycle where
  holders : List string_ref
  heap : heap

/-- One step: `_copy` of a live holder adds the destination to the holders; the destructor
of a live holder removes it. A step on a holder that is not live, or a failed assertion,
leaves no result. -/
def lifecycle.step (assertions : Bool) (s : lifecycle) : lifecycle_op → Option lifecycle
  | lifecycle_op.copy i =>
    match s.holders[i]? with
    | none => none
    | some r =>
      match _win32_code_domain.string_ref._copy assertions r s.heap with
      | none => none
      | some (dest, h) => some ⟨s.holders ++ [dest], h⟩
  | lifecycle_op.destroy i =>
    match s.holders[i]? with
    | none => none
    | some r =>
      some ⟨s.holders.eraseIdx i, _win32_code_domain.string_ref.destroy r s.heap⟩

/-- A sequence of steps. -/
def lifecycle.run (assertions : Bool) : lifecycle → List lifecycle_op → Option lifecycle
  | s, [] => some s
  | s, op :: ops =>
    match lifecycle.step assertions s op with
    | none => none
    | some s1 => lifecycle.run assertions s1 ops

/-- Whether every step of a sequence names a live holder, `n` holders being live before
the first step. -/
def lifecycle.well_formed : Nat → List lifecycle_op → Bool
  | _, [] => true
  | n, lifecycle_op.copy i :: ops => decide (i < n) && lifecycle.well_formed (n + 1) ops
  | n, lifecycle_op.destroy i :: ops => decide (i < n) && lifecycle.well_formed (n - 1) ops

/-- The largest number of holders live at once over a sequence of steps, `n` holders being
live before the first step. -/
def lifecycle.peak : Nat → List lifecycle_op → Nat
  | n, [] => n
  | n, lifecycle_op.copy _ :: ops => max n (lifecycle.peak (n + 1) ops)
  | n, lifecycle_op.destroy _ :: ops => max n (lifecycle.peak (n - 1) ops)

/-! ## Platforms of the scenarios -/

/-- A platform whose message is the single character `A`: `FormatMessageW` returns 1, every
`malloc` succeeds, and `WideCharToMultiByte` needs two bytes (the character and the NUL),
reporting `ERROR_INSUFFICIENT_BUFFER` for a smaller buffer; it describes `passes` passes of
the loop. -/
def one_character_platform (passes : Nat) : platform where
  FormatMessageW := fun _ => 1
  attempts := List.replicate passes
    ⟨fun _ => some 4096, [0],
     fun size => if 2 ≤ size then transcode_result.written [65]
                 else transcode_result.failed ERROR_INSUFFICIENT_BUFFER⟩
  calloc := some 8192

/-- A platform whose message is the line ending alone, `"\r\n"`: `FormatMessageW` returns
2, the transcoding into the 3-byte buffer succeeds, and the byte before the buffer is
`before`. -/
def line_ending_platform (before : Nat) : platform where
  FormatMessageW := fun _ => 2
  attempts :=
    [⟨fun _ => some 4096, [before], fun _ => transcode_result.written [13, 10]⟩]
  calloc := some 8192

/-- A platform whose message has 19 characters: the first buffer, of 28 bytes, is reported
too small, and the `malloc` of the second pass, for 35 bytes, returns `nullptr`. -/
def out_of_memory_platform : platform where
  FormatMessageW := fun _ => 19
  attempts :=
    [⟨fun _ => some 4096, [0],
      fun _ => transcode_result.failed ERROR_INSUFFICIENT_BUFFER⟩,
     ⟨fun _ => none, [0], fun _ => transcode_result.failed 0⟩]
  calloc := some 8192

/-- A platform whose message has 19 characters: the first buffer, of 28 bytes, is reported
too small, the second one, of 35 bytes, receives `"Access is denied.\r\n"`, and `calloc`
returns `nullptr`. -/
def calloc_null_platform : platform where
  FormatMessageW := fun _ => 19
  attempts :=
    [⟨fun _ => some 4096, [0],
      fun _ => transcode_result.failed ERROR_INSUFFICIENT_BUFFER⟩,
     ⟨fun _ => some 4160, [0],
      fun _ => transcode_result.written (literal "Access is denied." ++ [13, 10])⟩]
  calloc := none

/-- A platform whose message is `"Access is denied.\r\n"` under the first buffer, with
`calloc` succeeding at address 8192. -/
def access_denied_platform : platform where
  FormatMessageW := fun _ => 19
  attempts :=
    [⟨fun _ => some 4096, [0],
      fun _ => transcode_result.written
        (literal "Access is denied." ++ [13, 10])⟩]
  calloc := some 8192

/-- The one holder and the heap right after the message fetch on
`access_denied_platform`. -/
def access_denied_message : Option lifecycle :=
  (_win32_code_domain.string_ref.construct access_denied_platform 5).map
    (fun r => ⟨[r.ref], r.heap⟩)

/-! ## Assignment from a raw value (status_code.hpp) -/

/-- Embeds `status_code<DomainType>::operator=(const value_type &)`
(status_code.hpp:171-176), `_value = v; return *this;`: the code after the assignment. -/
def status_code.assign (c : status_code) (v : Int) : status_code :=
  { c with _value := v }

/-- Embeds `status_code<DomainType>::value` (status_code.hpp:188-195). -/
def status_code.value (c : status_code) : Int := c._value

/-- An instance of the absent parts in which every `switch` has a case for every value it
can be asked about (the OS-error value 0 apart, which is a case of the header itself):
a translation that reaches its table returns 13, respectively 5. -/
def saturated_env : Env where
  generic_id := 0x746d6354f4f733e9
  generic_message := fun _ => "unknown"
  win32_code_to_generic_code := fun c => if c = 0 then none else some 13
  nt_code_to_generic_code := fun _ => some 13
  nt_code_to_win32_code := fun _ => some 5

/-! ## Helper lemmas -/

theorem win32_id_ne_nt_id : win32_id ≠ nt_id := by decide

theorem win32_code_domain_id (E : Env) : (win32_code_domain E).id = win32_id := rfl

theorem win32_code_domain_failure (E : Env) :
    (win32_code_domain E)._failure = _win32_code_domain._failure := rfl

theorem win32_code_domain_equivalent (E : Env) :
    (win32_code_domain E)._equivalent = _win32_code_domain._equivalent E := rfl

theorem win32_code_domain_generic_code (E : Env) :
    (win32_code_domain E)._generic_code = _win32_code_domain._generic_code E := rfl

theorem nt_code_domain_id (E : Env) : (nt_code_domain E).id = nt_id := rfl

theorem nt_code_domain_failure (E : Env) :
    (nt_code_domain E)._failure = _nt_code_domain._failure := rfl

theorem nt_code_domain_equivalent (E : Env) :
    (nt_code_domain E)._equivalent = _nt_code_domain._equivalent E := rfl

theorem nt_code_domain_generic_code (E : Env) :
    (nt_code_domain E)._generic_code = _nt_code_domain._generic_code E := rfl

theorem generic_code_domain_id (E : Env) : (generic_code_domain E).id = E.generic_id := rfl

theorem generic_code_domain_equivalent (E : Env) (c1 c2 : code_ref) :
    (generic_code_domain E)._equivalent c1 c2
      = (if c2.domain_id == E.generic_id then c1.value == c2.value else false) := rfl

theorem generic_code_domain_generic_code (E : Env) (c : code_ref) :
    (generic_code_domain E)._generic_code c = c.value := rfl

theorem empty_of_value (d : status_code_domain) (v : Int) :
    (status_code.of_value d v).empty = false := rfl

theorem success_of_value (d : status_code_domain) (v : Int) :
    (status_code.of_value d v).success = !d._failure ⟨d.id, v⟩ := rfl

theorem failure_of_value (d : status_code_domain) (v : Int) :
    (status_code.of_value d v).failure = d._failure ⟨d.id, v⟩ := rfl

theorem strictly_equivalent_of_value (d od : status_code_domain) (v w : Int) :
    (status_code.of_value d v).strictly_equivalent (status_code.of_value od w)
      = d._equivalent ⟨d.id, v⟩ ⟨od.id, w⟩ := rfl

theorem equivalent_of_value (d od : status_code_domain) (v w : Int) :
    (status_code.of_value d v).equivalent (status_code.of_value od w)
      = (d._equivalent ⟨d.id, v⟩ ⟨od.id, w⟩ || od._equivalent ⟨od.id, w⟩ ⟨d.id, v⟩
          || (d._generic_code ⟨d.id, v⟩ == od._generic_code ⟨od.id, w⟩
                && d._generic_code ⟨d.id, v⟩ != errc_unknown)) := rfl

/-- The body of `_win32_code_domain::_equivalent` written out branch by branch. -/
theorem win32_equivalent_iff (E : Env) (c1 c2 : code_ref) :
    _win32_code_domain._equivalent E c1 c2 = true ↔
      (c2.domain_id = win32_id ∧ c1.value = c2.value) ∨
      (c2.domain_id ≠ win32_id ∧ c2.domain_id = E.generic_id ∧
        c2.value = _win32_code_domain._win32_code_to_errno E c1.value.toNat) := by
  unfold _win32_code_domain._equivalent
  by_cases h : c2.domain_id = win32_id
  · simp [h]
  · simp [h]

/-- The body of `_nt_code_domain::_equivalent` written out branch by branch. -/
theorem nt_equivalent_iff (E : Env) (c1 c2 : code_ref) :
    _nt_code_domain._equivalent E c1 c2 = true ↔
      (c2.domain_id = nt_id ∧ c1.value = c2.value) ∨
      (c2.domain_id ≠ nt_id ∧
        ((c2.domain_id = E.generic_id ∧
            c2.value = _nt_code_domain._nt_code_to_errno E c1.value) ∨
         (c2.domain_id = win32_id ∧
            c2.value = (_nt_code_domain._nt_code_to_win32_code E c1.value : Int)))) := by
  unfold _nt_code_domain._equivalent
  by_cases h : c2.domain_id = nt_id
  · simp [h]
  · simp [h]

/-- Two OS-error codes built from raw values are strictly equivalent iff the values are
equal. -/
theorem win32_strictly_equivalent_iff (E : Env) (a b : Nat) :
    ((win32_code E a).strictly_equivalent (win32_code E b) = true ↔ a = b) := by
  unfold win32_code
  rw [strictly_equivalent_of_value, win32_code_domain_id, win32_code_domain_equivalent,
    win32_equivalent_iff]
  simp

/-- Two kernel codes built from raw values are strictly equivalent iff the values are
equal. -/
theorem nt_strictly_equivalent_iff (E : Env) (a b : Int) :
    ((nt_code E a).strictly_equivalent (nt_code E b) = true ↔ a = b) := by
  unfold nt_code
  rw [strictly_equivalent_of_value, nt_code_domain_id, nt_code_domain_equivalent,
    nt_equivalent_iff]
  simp

/-- The generic round trip of the spec-modelled `equivalent` does not depend on the order
of the operands. -/
theorem generic_round_trip_comm (a b : status_code) :
    (match a.as_generic, b.as_generic with
     | some g1, some g2 => g1 == g2 && g1 != errc_unknown
     | _, _ => false)
    = (match b.as_generic, a.as_generic with
       | some g1, some g2 => g1 == g2 && g1 != errc_unknown
       | _, _ => false) := by
  cases a.as_generic with
  | none => cases b.as_generic <;> simp
  | some x =>
    cases b.as_generic with
    | none => simp
    | some y =>
      by_cases hxy : x = y
      · subst hxy; simp
      · have h1 : (x == y) = false := beq_eq_false_iff_ne.mpr hxy
        have h2 : (y == x) = false := beq_eq_false_iff_ne.mpr (fun h => hxy h.symm)
        simp [h1, h2]

/-! ## C1 -/

/-- C1: `strictly_equivalent` settles emptiness before any domain is consulted: two empty
codes are strictly equivalent, an empty and a non-empty code (in either position) are not,
and for two non-empty codes the result is what `_equivalent` of the left operand's domain
returns for the pair. -/
theorem strictly_equivalent_handles_empty (a b : status_code) :
    (a.empty = true → b.empty = true → a.strictly_equivalent b = true) ∧
    (a.empty = true → b.empty = false → a.strictly_equivalent b = false) ∧
    (a.empty = false → b.empty = true → a.strictly_equivalent b = false) ∧
    (∀ d od, a._domain = some d → b._domain = some od →
      a.strictly_equivalent b
        = d._equivalent (status_code.ref d a) (status_code.ref od b)) := by
  obtain ⟨da, va⟩ := a
  obtain ⟨db, vb⟩ := b
  cases da <;> cases db <;>
    simp [status_code.empty, status_code.strictly_equivalent, status_code.ref]

/-- C1 at concrete codes: the four cases of the theorem, each with its premises
discharged. -/
theorem strictly_equivalent_handles_empty_witness :
    status_code.strictly_equivalent status_code.default_constructed
        status_code.default_constructed = true ∧
    status_code.strictly_equivalent status_code.default_constructed
        (win32_code scenario_env 5) = false ∧
    status_code.strictly_equivalent (win32_code scenario_env 5)
        status_code.default_constructed = false ∧
    status_code.strictly_equivalent (win32_code scenario_env 5) (nt_code scenario_env 7)
      = (win32_code_domain scenario_env)._equivalent
          (status_code.ref (win32_code_domain scenario_env) (win32_code scenario_env 5))
          (status_code.ref (nt_code_domain scenario_env) (nt_code scenario_env 7)) :=
  ⟨(strictly_equivalent_handles_empty _ _).1 rfl rfl,
   (strictly_equivalent_handles_empty _ _).2.1 rfl rfl,
   (strictly_equivalent_handles_empty _ _).2.2.1 rfl rfl,
   (strictly_equivalent_handles_empty _ _).2.2.2 _ _ rfl rfl⟩

/-! ## C2 -/

/-- C2: within the OS-error domain and within the kernel-error domain strict equivalence
is equality of the values: it is reflexive, it holds iff the two values are equal, and it
is symmetric. -/
theorem strictly_equivalent_within_domain (E : Env) (v w : Nat) (x y : Int) :
    (win32_code E v).strictly_equivalent (win32_code E v) = true ∧
    (nt_code E x).strictly_equivalent (nt_code E x) = true ∧
    ((win32_code E v).strictly_equivalent (win32_code E w) = true ↔ v = w) ∧
    ((nt_code E x).strictly_equivalent (nt_code E y) = true ↔ x = y) ∧
    (win32_code E v).strictly_equivalent (win32_code E w)
      = (win32_code E w).strictly_equivalent (win32_code E v) ∧
    (nt_code E x).strictly_equivalent (nt_code E y)
      = (nt_code E y).strictly_equivalent (nt_code E x) := by
  refine ⟨(win32_strictly_equivalent_iff E v v).mpr rfl,
    (nt_strictly_equivalent_iff E x x).mpr rfl,
    win32_strictly_equivalent_iff E v w, nt_strictly_equivalent_iff E x y, ?_, ?_⟩
  · rw [Bool.eq_iff_iff, win32_strictly_equivalent_iff, win32_strictly_equivalent_iff]
    exact eq_comm
  · rw [Bool.eq_iff_iff, nt_strictly_equivalent_iff, nt_strictly_equivalent_iff]
    exact eq_comm

/-! ## C3 -/

/-- C3: general equivalence is symmetric: for all codes `a` and `b`, empty or not and of
any domains (the generic, OS-error and kernel-error domains in every combination among
them), `a.equivalent(b) == b.equivalent(a)`, where two codes are equivalent exactly when
one of them is strictly equivalent to the other or both convert to the same generic value
other than unknown. Strict equivalence itself depends on the direction: the kernel code -1
is strictly equivalent to the OS-error code `0xFFFFFFFF` and not the other way round, and
the two are equivalent in both directions. -/
theorem equivalent_symmetric (a b : status_code) :
    a.equivalent b = b.equivalent a ∧
    (a.equivalent b = true ↔
      (a.strictly_equivalent b = true ∨ b.strictly_equivalent a = true ∨
        ∃ r, a.as_generic = some r ∧ b.as_generic = some r ∧ r ≠ errc_unknown)) ∧
    ((nt_code scenario_env (-1)).strictly_equivalent
        (win32_code scenario_env 0xFFFFFFFF) = true ∧
      (win32_code scenario_env 0xFFFFFFFF).strictly_equivalent
        (nt_code scenario_env (-1)) = false ∧
      (nt_code scenario_env (-1)).equivalent (win32_code scenario_env 0xFFFFFFFF) = true ∧
      (win32_code scenario_env 0xFFFFFFFF).equivalent (nt_code scenario_env (-1)) = true ∧
      status_code.default_constructed.equivalent (win32_code scenario_env 5) = false ∧
      (win32_code scenario_env 5).equivalent status_code.default_constructed = false ∧
      status_code.default_constructed.equivalent status_code.default_constructed
        = true) := by
  refine ⟨?_, ?_, by decide⟩
  · unfold status_code.equivalent
    rw [generic_round_trip_comm b a, Bool.or_comm (a.strictly_equivalent b)]
  · unfold status_code.equivalent
    cases ha : a.as_generic with
    | none => simp
    | some r1 =>
      cases hb : b.as_generic with
      | none => simp
      | some r2 =>
        by_cases hr : r1 = r2
        · subst hr
          by_cases hu : r1 = errc_unknown
          · simp [hu]
          · have h3 : (r1 != errc_unknown) = true := bne_iff_ne.mpr hu
            simp [h3, hu, or_assoc]
        · have h1 : (r1 == r2) = false := beq_eq_false_iff_ne.mpr hr
          have hr2 : ¬ r2 = r1 := fun e => hr e.symm
          simp [h1, hr, hr2]

/-! ## C4 -/

/-- C4, refuted as stated: the OS-error value 2 translates to generic value 2, and the
OS-error code is strictly equivalent to the generic code 2, although the two codes are in
different domains. -/
theorem win32_strictly_equivalent_generic :
    _win32_code_domain._win32_code_to_errno scenario_env 2 = 2 ∧
    (win32_code scenario_env 2).strictly_equivalent (generic_code scenario_env 2) = true := by
  decide

/-- C4, amended: for an OS-error value `w` that the translation table maps to generic
value 2, the generic code 2 and the OS-error code `w` are equivalent in both directions;
the generic code is not strictly equivalent to the OS-error code, while the OS-error code
is strictly equivalent to the generic code, because the OS-error domain's rule recognises
the generic domain. -/
theorem generic_two_against_win32 (E : Env) (w : Nat)
    (hg : E.generic_id ≠ win32_id)
    (hw : _win32_code_domain._win32_code_to_errno E w = 2) :
    (generic_code E 2).equivalent (win32_code E w) = true ∧
    (win32_code E w).equivalent (generic_code E 2) = true ∧
    (generic_code E 2).strictly_equivalent (win32_code E w) = false ∧
    (win32_code E w).strictly_equivalent (generic_code E 2) = true := by
  have hgen : ∀ i : Nat, _win32_code_domain._generic_code E ⟨i, (w : Int)⟩ = 2 := by
    intro i
    simp [_win32_code_domain._generic_code, hw]
  have hs : (win32_code E w).strictly_equivalent (generic_code E 2) = true := by
    unfold win32_code generic_code
    rw [strictly_equivalent_of_value, win32_code_domain_equivalent, generic_code_domain_id,
      win32_equivalent_iff]
    right
    exact ⟨hg, rfl, by simp [hw]⟩
  have hs2 : (generic_code E 2).strictly_equivalent (win32_code E w) = false := by
    unfold win32_code generic_code
    rw [strictly_equivalent_of_value, generic_code_domain_equivalent, win32_code_domain_id]
    have hne : (win32_id == E.generic_id) = false :=
      beq_eq_false_iff_ne.mpr (fun e => hg e.symm)
    simp [hne]
  refine ⟨?_, ?_, hs2, hs⟩
  · unfold win32_code generic_code
    rw [equivalent_of_value, generic_code_domain_generic_code,
      win32_code_domain_generic_code, hgen]
    simp [errc_unknown]
  · unfold status_code.equivalent
    rw [hs]
    rfl

/-- C4 amended, at the OS-error value 2 of the scenario tables. -/
theorem generic_two_against_win32_witness :
    (generic_code scenario_env 2).equivalent (win32_code scenario_env 2) = true ∧
    (win32_code scenario_env 2).equivalent (generic_code scenario_env 2) = true ∧
    (generic_code scenario_env 2).strictly_equivalent (win32_code scenario_env 2) = false ∧
    (win32_code scenario_env 2).strictly_equivalent (generic_code scenario_env 2) = true :=
  generic_two_against_win32 scenario_env 2 (by decide) (by decide)

/-! ## C5 -/

/-- C5: the kernel-error domain's strict rule recognises its own translations: for every
kernel value `c`, the kernel code is strictly equivalent to the OS-error code holding
`_nt_code_to_win32_code(c)` and to the generic code holding `_nt_code_to_errno(c)`; the
answer depends only on the identity and the value of the right-hand code, not on any
virtual function (such as the generic conversion) of its domain. -/
theorem nt_strictly_equivalent_translations (E : Env) (c : Int)
    (hg : E.generic_id ≠ nt_id) :
    (nt_code E c).strictly_equivalent
      (win32_code E (_nt_code_domain._nt_code_to_win32_code E c)) = true ∧
    (nt_code E c).strictly_equivalent
      (generic_code E (_nt_code_domain._nt_code_to_errno E c)) = true ∧
    (∀ d : status_code_domain, d.id = win32_id →
      (nt_code E c).strictly_equivalent
        (status_code.of_value d (_nt_code_domain._nt_code_to_win32_code E c : Int)) = true) ∧
    (∀ d : status_code_domain, d.id = E.generic_id →
      (nt_code E c).strictly_equivalent
        (status_code.of_value d (_nt_code_domain._nt_code_to_errno E c)) = true) := by
  have hwin : ∀ d : status_code_domain, d.id = win32_id →
      (nt_code E c).strictly_equivalent
        (status_code.of_value d (_nt_code_domain._nt_code_to_win32_code E c : Int))
        = true := by
    intro d hd
    unfold nt_code
    rw [strictly_equivalent_of_value, nt_code_domain_equivalent, hd, nt_equivalent_iff]
    right
    exact ⟨win32_id_ne_nt_id, Or.inr ⟨rfl, rfl⟩⟩
  have hgen : ∀ d : status_code_domain, d.id = E.generic_id →
      (nt_code E c).strictly_equivalent
        (status_code.of_value d (_nt_code_domain._nt_code_to_errno E c)) = true := by
    intro d hd
    unfold nt_code
    rw [strictly_equivalent_of_value, nt_code_domain_equivalent, hd, nt_equivalent_iff]
    right
    exact ⟨hg, Or.inl ⟨rfl, rfl⟩⟩
  exact ⟨hwin (win32_code_domain E) rfl, hgen (generic_code_domain E) rfl, hwin, hgen⟩

/-- C5 at the kernel "access denied" value 0xC0000022 (as a signed 32-bit value,
-1073741790) of the scenario tables: it translates to the OS-error value 5 and the generic
value 13, and the kernel code is strictly equivalent to both counterparts. -/
theorem nt_strictly_equivalent_translations_witness :
    _nt_code_domain._nt_code_to_win32_code scenario_env (-1073741790) = 5 ∧
    _nt_code_domain._nt_code_to_errno scenario_env (-1073741790) = 13 ∧
    (nt_code scenario_env (-1073741790)).strictly_equivalent
      (win32_code scenario_env
        (_nt_code_domain._nt_code_to_win32_code scenario_env (-1073741790))) = true ∧
    (nt_code scenario_env (-1073741790)).strictly_equivalent
      (generic_code scenario_env
        (_nt_code_domain._nt_code_to_errno scenario_env (-1073741790))) = true :=
  ⟨by decide, by decide,
   (nt_strictly_equivalent_translations scenario_env (-1073741790) (by decide)).1,
   (nt_strictly_equivalent_translations scenario_env (-1073741790) (by decide)).2.1⟩

/-! ## C6 -/

/-- C6: `_nt_code_domain::_equivalent(c1, c2)` is true exactly when `c2` is a kernel code
with the value of `c1`, or a generic code whose value is `_nt_code_to_errno` of `c1`, or an
OS-error code whose value is `_nt_code_to_win32_code` of `c1`; for a `c2` of any other
domain it is false. -/
theorem nt_equivalent_three_cases (E : Env) (c1 c2 : code_ref)
    (hg : E.generic_id ≠ nt_id) :
    (_nt_code_domain._equivalent E c1 c2 = true ↔
      (c2.domain_id = nt_id ∧ c2.value = c1.value) ∨
      (c2.domain_id = E.generic_id ∧
        c2.value = _nt_code_domain._nt_code_to_errno E c1.value) ∨
      (c2.domain_id = win32_id ∧
        c2.value = (_nt_code_domain._nt_code_to_win32_code E c1.value : Int))) ∧
    (c2.domain_id ≠ nt_id → c2.domain_id ≠ E.generic_id → c2.domain_id ≠ win32_id →
      _nt_code_domain._equivalent E c1 c2 = false) := by
  have hiff := nt_equivalent_iff E c1 c2
  constructor
  · rw [hiff]
    constructor
    · rintro (⟨h1, h2⟩ | ⟨_, h2 | h2⟩)
      · exact Or.inl ⟨h1, h2.symm⟩
      · exact Or.inr (Or.inl h2)
      · exact Or.inr (Or.inr h2)
    · rintro (⟨h1, h2⟩ | h2 | h2)
      · exact Or.inl ⟨h1, h2.symm⟩
      · exact Or.inr ⟨fun e => hg (h2.1.symm.trans e), Or.inl h2⟩
      · exact Or.inr ⟨fun e => win32_id_ne_nt_id (h2.1.symm.trans e), Or.inr h2⟩
  · intro h1 h2 h3
    rw [Bool.eq_false_iff]
    intro ht
    rcases hiff.mp ht with ⟨h, _⟩ | ⟨_, h | h⟩
    · exact h1 h
    · exact h2 h.1
    · exact h3 h.1

/-- C6 at the scenario tables: a kernel code against a code of a domain with identity 1,
which is none of the three domains the rule knows. -/
theorem nt_equivalent_three_cases_witness :
    _nt_code_domain._equivalent scenario_env ⟨nt_id, -1073741790⟩ ⟨1, -1073741790⟩
      = false :=
  (nt_equivalent_three_cases scenario_env ⟨nt_id, -1073741790⟩ ⟨1, -1073741790⟩
    (by decide)).2 (by decide) (by decide) (by decide)

/-! ## C7 -/

/-- C7: strict equivalence between the OS-error and kernel-error domains is defined in one
direction only: an OS-error code is never strictly equivalent to a kernel code (the two
domain identities differ and the OS-error rule knows only itself and the generic domain),
while the kernel code 0 is strictly equivalent to the OS-error code 0; hence strict
equivalence is not symmetric across these domains. -/
theorem win32_nt_strict_asymmetry (E : Env) (hg : E.generic_id ≠ nt_id) :
    (∀ (v : Nat) (x : Int), (win32_code E v).strictly_equivalent (nt_code E x) = false) ∧
    win32_id ≠ nt_id ∧
    (nt_code E 0).strictly_equivalent (win32_code E 0) = true ∧
    (∃ a b : status_code,
      b.strictly_equivalent a = true ∧ a.strictly_equivalent b = false) := by
  have h1 : ∀ (v : Nat) (x : Int),
      (win32_code E v).strictly_equivalent (nt_code E x) = false := by
    intro v x
    unfold win32_code nt_code
    rw [strictly_equivalent_of_value, win32_code_domain_equivalent, nt_code_domain_id,
      Bool.eq_false_iff]
    intro ht
    rcases (win32_equivalent_iff E _ _).mp ht with ⟨h, _⟩ | ⟨_, h, _⟩
    · exact win32_id_ne_nt_id h.symm
    · exact hg h.symm
  have h2 : (nt_code E 0).strictly_equivalent (win32_code E 0) = true := by
    unfold win32_code nt_code
    rw [strictly_equivalent_of_value, nt_code_domain_equivalent, win32_code_domain_id,
      nt_equivalent_iff]
    right
    refine ⟨win32_id_ne_nt_id, Or.inr ⟨rfl, ?_⟩⟩
    simp [_nt_code_domain._nt_code_to_win32_code]
  exact ⟨h1, win32_id_ne_nt_id, h2, win32_code E 0, nt_code E 0, h2, h1 0 0⟩

/-- C7 at the scenario tables. -/
theorem win32_nt_strict_asymmetry_witness :
    (win32_code scenario_env 5).strictly_equivalent (nt_code scenario_env (-1073741790))
      = false ∧
    (nt_code scenario_env (-1073741790)).strictly_equivalent (win32_code scenario_env 5)
      = true :=
  ⟨(win32_nt_strict_asymmetry scenario_env (by decide)).1 5 (-1073741790), by decide⟩

/-! ## C8 -/

/-- C8: a non-empty code is not empty and exactly one of `success()` and `failure()` is
true; in particular this holds for every code built by the explicit value constructor of
the OS-error or of the kernel-error domain. -/
theorem nonempty_success_xor_failure (E : Env) (v : Nat) (x : Int) :
    (∀ c : status_code, c.empty = false →
      (c.success = true ∧ c.failure = false) ∨ (c.success = false ∧ c.failure = true)) ∧
    (win32_code E v).empty = false ∧
    (((win32_code E v).success = true ∧ (win32_code E v).failure = false) ∨
      ((win32_code E v).success = false ∧ (win32_code E v).failure = true)) ∧
    (nt_code E x).empty = false ∧
    (((nt_code E x).success = true ∧ (nt_code E x).failure = false) ∨
      ((nt_code E x).success = false ∧ (nt_code E x).failure = true)) := by
  have key : ∀ c : status_code, c.empty = false →
      (c.success = true ∧ c.failure = false) ∨ (c.success = false ∧ c.failure = true) := by
    intro c hc
    obtain ⟨d, val⟩ := c
    cases d with
    | none => simp [status_code.empty] at hc
    | some d =>
      simp only [status_code.success, status_code.failure]
      cases d._failure (status_code.ref d ⟨some d, val⟩) <;> simp
  exact ⟨key, empty_of_value _ _, key _ (empty_of_value _ _), empty_of_value _ _,
    key _ (empty_of_value _ _)⟩

/-- C8 at the OS-error code 5, which is a failure and not a success. -/
theorem nonempty_success_xor_failure_witness :
    ((win32_code scenario_env 5).success = true ∧
        (win32_code scenario_env 5).failure = false) ∨
      ((win32_code scenario_env 5).success = false ∧
        (win32_code scenario_env 5).failure = true) :=
  (nonempty_success_xor_failure scenario_env 0 0).1 (win32_code scenario_env 5) rfl

/-! ## C9 -/

/-- C9: an empty code, whatever value it stores, is neither success nor failure:
`empty()` is true and `success()` and `failure()` are both false; so it is for the
default-constructed code. -/
theorem empty_neither_success_nor_failure (v : Int) :
    status_code.empty ⟨none, v⟩ = true ∧
    status_code.success ⟨none, v⟩ = false ∧
    status_code.failure ⟨none, v⟩ = false ∧
    status_code.default_constructed.empty = true ∧
    status_code.default_constructed.success = false ∧
    status_code.default_constructed.failure = false :=
  ⟨rfl, rfl, rfl, rfl, rfl, rfl⟩

/-! ## C10 -/

/-- C10: an OS-error code built from the raw value `v` is a failure iff `v ≠ 0` and a
success iff `v = 0`. -/
theorem win32_failure_iff (E : Env) (v : Nat) :
    ((win32_code E v).failure = true ↔ v ≠ 0) ∧
    ((win32_code E v).success = true ↔ v = 0) := by
  unfold win32_code
  rw [failure_of_value, success_of_value, win32_code_domain_failure]
  simp [_win32_code_domain._failure]

/-! ## Helper lemmas for the later claims -/

theorem as_generic_of_value (d : status_code_domain) (v : Int) :
    (status_code.of_value d v).as_generic = some (d._generic_code ⟨d.id, v⟩) := rfl

theorem dword_minus_one_eq : dword_minus_one = 4294967295 := by decide

theorem le_value_append (a b : List Nat) :
    status_code_repr.le_value (a ++ b)
      = status_code_repr.le_value a + 256 ^ a.length * status_code_repr.le_value b := by
  induction a with
  | nil => simp [status_code_repr.le_value]
  | cons x xs ih =>
    show x + 256 * status_code_repr.le_value (xs ++ b)
      = (x + 256 * status_code_repr.le_value xs)
        + 256 ^ (xs.length + 1) * status_code_repr.le_value b
    rw [ih]
    ring

theorem le_value_lt (a : List Nat) (h : ∀ b ∈ a, b < 256) :
    status_code_repr.le_value a < 256 ^ a.length := by
  induction a with
  | nil => simp [status_code_repr.le_value]
  | cons x xs ih =>
    have hx : x < 256 := h x (List.mem_cons_self _ _)
    have hxs := ih (fun b hb => h b (List.mem_cons_of_mem _ hb))
    simp only [status_code_repr.le_value, List.length_cons, pow_succ]
    omega

theorem le_bytes_length (n v : Nat) : (status_code_repr.le_bytes n v).length = n := by
  induction n generalizing v with
  | zero => rfl
  | succ k ih => simp [status_code_repr.le_bytes, ih]

theorem le_bytes_lt (n v : Nat) : ∀ b ∈ status_code_repr.le_bytes n v, b < 256 := by
  induction n generalizing v with
  | zero => simp [status_code_repr.le_bytes]
  | succ k ih =>
    intro b hb
    simp only [status_code_repr.le_bytes, List.mem_cons] at hb
    rcases hb with hb | hb
    · omega
    · exact ih _ b hb

theorem le_value_le_bytes (n v : Nat) :
    status_code_repr.le_value (status_code_repr.le_bytes n v) = v % 256 ^ n := by
  induction n generalizing v with
  | zero => simp [status_code_repr.le_bytes, status_code_repr.le_value, Nat.mod_one]
  | succ k ih =>
    simp only [status_code_repr.le_bytes, status_code_repr.le_value, ih, pow_succ]
    rw [Nat.mul_comm (256 ^ k) 256, Nat.mod_mul]

/-- The erased value starts with the bytes of the typed value, whatever follows them in
memory. -/
theorem erase_value_eq (e : Nat) (following : List Nat) (c : status_code_repr)
    (hsize : c._value.length ≤ e) :
    (status_code_repr.erase e following c)._value
      = c._value ++ following.take (e - c._value.length) := by
  simp only [status_code_repr.erase]
  rw [List.take_append_eq_append_take, List.take_of_length_le hsize]

/-! ## Lemmas on the message fetch -/

/-- The trimming loop steps over a run of line-ending bytes. -/
theorem trim_loop_line_endings (tail rest : List Nat) (e : Int)
    (h : ∀ b ∈ tail, b = 10 ∨ b = 13) :
    trim_loop (tail ++ rest) e = trim_loop rest (e - tail.length) := by
  induction tail generalizing e with
  | nil => simp
  | cons b bs ih =>
    have hb : (b == 10 || b == 13) = true := by
      rcases h b (List.mem_cons_self _ _) with hb | hb <;> simp [hb]
    have hbs := ih (e - 1) (fun x hx => h x (List.mem_cons_of_mem _ hx))
    show trim_loop (b :: (bs ++ rest)) e = _
    rw [trim_loop]
    simp only [hb, if_true]
    rw [hbs]
    congr 1
    simp only [List.length_cons]
    push_cast
    ring

/-- The trimming loop stops below a byte that is not a line ending. -/
theorem trim_loop_stop (x : Nat) (rest : List Nat) (e : Int) (h10 : x ≠ 10) (h13 : x ≠ 13) :
    trim_loop (x :: rest) e = e := by
  simp [trim_loop, h10, h13]

/-- For a text that has a byte other than CR and LF, the trimming loop ends right after the
last such byte, whatever lies before the buffer. -/
theorem trim_loop_text (keep tail before : List Nat) (x : Nat)
    (h10 : x ≠ 10) (h13 : x ≠ 13) (htail : ∀ b ∈ tail, b = 10 ∨ b = 13) :
    trim_loop ((keep ++ x :: tail).reverse ++ before) ((keep ++ x :: tail).length : Nat)
      = ((keep ++ [x]).length : Nat) := by
  have hrev : (keep ++ x :: tail).reverse ++ before
      = tail.reverse ++ (x :: (keep.reverse ++ before)) := by
    simp
  rw [hrev, trim_loop_line_endings _ _ _ (fun b hb => htail b (List.mem_reverse.mp hb)),
    trim_loop_stop _ _ _ h10 h13]
  simp only [List.length_append, List.length_cons, List.length_reverse, List.length_nil]
  push_cast
  ring

/-- The positions read while stepping over a run of line-ending bytes and stopping at a
byte that is not one lie between the position of that byte and the starting point. -/
theorem trim_reads_bounds (tail rest : List Nat) (x : Nat) (e : Int)
    (h10 : x ≠ 10) (h13 : x ≠ 13) (h : ∀ b ∈ tail, b = 10 ∨ b = 13) :
    ∀ i ∈ trim_reads (tail ++ x :: rest) e, e - tail.length - 1 ≤ i ∧ i < e := by
  induction tail generalizing e with
  | nil =>
    intro i hi
    simp [trim_reads, h10, h13] at hi
    subst hi
    simp
  | cons b bs ih =>
    intro i hi
    have hb : (b == 10 || b == 13) = true := by
      rcases h b (List.mem_cons_self _ _) with hb | hb <;> simp [hb]
    simp only [List.cons_append, trim_reads, hb, if_true, List.mem_cons] at hi
    rcases hi with hi | hi
    · subst hi
      simp only [List.length_cons]
      push_cast
      omega
    · have := ih (e - 1) (fun y hy => h y (List.mem_cons_of_mem _ hy)) i hi
      simp only [List.length_cons]
      push_cast
      omega

/-- For a text that has a byte other than CR and LF, every read of the trimming loop is
inside the text. -/
theorem trim_reads_text (keep tail before : List Nat) (x : Nat)
    (h10 : x ≠ 10) (h13 : x ≠ 13) (htail : ∀ b ∈ tail, b = 10 ∨ b = 13) :
    ∀ i ∈ trim_reads ((keep ++ x :: tail).reverse ++ before)
        ((keep ++ x :: tail).length : Nat),
      (0 : Int) ≤ i ∧ i < ((keep ++ x :: tail).length : Nat) := by
  intro i hi
  have hrev : (keep ++ x :: tail).reverse ++ before
      = tail.reverse ++ (x :: (keep.reverse ++ before)) := by
    simp
  rw [hrev] at hi
  have := trim_reads_bounds tail.reverse (keep.reverse ++ before) x _ h10 h13
    (fun b hb => htail b (List.mem_reverse.mp hb)) i hi
  simp only [List.length_append, List.length_cons, List.length_reverse] at this ⊢
  push_cast at this ⊢
  omega

/-- From 4 bytes on, and below the wrap of `size_t`, the grown buffer size is strictly
larger. -/
theorem next_allocation_gt (a : Nat) (h4 : 4 ≤ a) (hmax : a + a / 4 < 2 ^ 64) :
    a < next_allocation a := by
  unfold next_allocation
  rw [Nat.mod_eq_of_lt hmax]
  omega

/-- With a buffer of one byte that is too small, the loop is still retrying after any
number of passes. -/
theorem fetch_loop_one_character (passes : Nat) (h : heap) :
    fetch_loop (one_character_platform passes).attempts 1 h = none := by
  induction passes generalizing h with
  | zero => rfl
  | succ n ih =>
    have hn : next_allocation 1 = 1 := by decide
    simp only [one_character_platform, List.replicate_succ, fetch_loop] at ih ⊢
    simp only [ERROR_INSUFFICIENT_BUFFER, beq_self_eq_true, if_true, hn]
    simpa using ih _

/-- The two constructors run the same statements on the length that `FormatMessageW`
returns. -/
theorem win32_construct_eq_nt_construct (P : platform) (c : Nat) :
    _win32_code_domain.string_ref.construct P c
      = _nt_code_domain.string_ref.construct P (c : Int) := rfl

/-- Each buffer the loop obtained and did not hand over has been freed: leaving by
`goto failure` all buffers are freed, leaving by `break` all but the buffer handed
over. -/
theorem fetch_loop_heap (attempts : List attempt) (allocation : Nat) (h : heap)
    (hh : h.freed = h.allocated.map pointer.block) :
    (∀ h1, fetch_loop attempts allocation h = some (loop_exit.failure h1) →
      h1.freed = h1.allocated.map pointer.block) ∧
    (∀ p before text h1,
      fetch_loop attempts allocation h = some (loop_exit.converted p before text h1) →
      h1.freed ++ [pointer.block p] = h1.allocated.map pointer.block) := by
  induction attempts generalizing allocation h with
  | nil =>
    constructor
    · intro h1 hf; simp [fetch_loop] at hf
    · intro p before text h1 hf; simp [fetch_loop] at hf
  | cons a rest ih =>
    have hfree : ∀ p, ((h.alloc p).free (pointer.block p)).freed
        = ((h.alloc p).free (pointer.block p)).allocated.map pointer.block := by
      intro p
      simp [heap.alloc, heap.free, hh]
    cases hm : a.malloc allocation with
    | none =>
      constructor
      · intro h1 hf
        simp only [fetch_loop, hm, Option.some.injEq, loop_exit.failure.injEq] at hf
        subst hf
        exact hh
      · intro p before text h1 hf
        simp [fetch_loop, hm] at hf
    | some p0 =>
      cases ht : a.WideCharToMultiByte allocation with
      | written t =>
        constructor
        · intro h1 hf
          simp [fetch_loop, hm, ht] at hf
        · intro p before text h1 hf
          simp only [fetch_loop, hm, ht, Option.some.injEq,
            loop_exit.converted.injEq] at hf
          obtain ⟨hp, _, _, hh1⟩ := hf
          subst hp
          subst hh1
          simp [heap.alloc, hh]
      | failed err =>
        by_cases he : (err == ERROR_INSUFFICIENT_BUFFER) = true
        · have := ih (next_allocation allocation) ((h.alloc p0).free (pointer.block p0))
            (hfree p0)
          constructor
          · intro h1 hf
            simp only [fetch_loop, hm, ht, he, if_true] at hf
            exact this.1 h1 hf
          · intro p before text h1 hf
            simp only [fetch_loop, hm, ht, he, if_true] at hf
            exact this.2 p before text h1 hf
        · constructor
          · intro h1 hf
            simp only [fetch_loop, hm, ht, he, Bool.false_eq_true, if_false,
              Option.some.injEq, loop_exit.failure.injEq] at hf
            subst hf
            exact hfree p0
          · intro p before text h1 hf
            simp [fetch_loop, hm, ht, he] at hf

/-- Passes that obtain a buffer and find it too small lead to the next pass with the
buffer size grown once per pass. -/
theorem fetch_loop_retries (retries rest : List attempt) (allocation : Nat) (h : heap)
    (hret : ∀ i (hi : i < retries.length),
      (retries[i].malloc (next_allocation^[i] allocation)).isSome = true ∧
      retries[i].WideCharToMultiByte (next_allocation^[i] allocation)
        = transcode_result.failed ERROR_INSUFFICIENT_BUFFER) :
    ∃ h1, fetch_loop (retries ++ rest) allocation h
      = fetch_loop rest (next_allocation^[retries.length] allocation) h1 := by
  induction retries generalizing allocation h with
  | nil => exact ⟨h, rfl⟩
  | cons a as ih =>
    have h0 := hret 0 (by simp)
    simp only [List.getElem_cons_zero, Function.iterate_zero, id_eq] at h0
    obtain ⟨p, hp⟩ := Option.isSome_iff_exists.mp h0.1
    have hrest : ∀ i (hi : i < as.length),
        (as[i].malloc (next_allocation^[i] (next_allocation allocation))).isSome = true ∧
        as[i].WideCharToMultiByte (next_allocation^[i] (next_allocation allocation))
          = transcode_result.failed ERROR_INSUFFICIENT_BUFFER := by
      intro i hi
      have := hret (i + 1) (by simp; omega)
      simpa [Function.iterate_succ_apply] using this
    obtain ⟨h1, hh1⟩ := ih (next_allocation allocation)
      ((h.alloc p).free (pointer.block p)) hrest
    refine ⟨h1, ?_⟩
    simp only [List.cons_append, fetch_loop, hp, h0.2, beq_self_eq_true, if_true,
      List.length_cons, Function.iterate_succ_apply]
    exact hh1

/-- A fetch whose first pass transcodes a text with a byte other than CR and LF gives the
reference to the text up to its last such byte: the trailing line-ending bytes are cut and
nothing else is changed. -/
theorem construct_trims (P : platform) (c : Nat) (a : attempt) (rest : List attempt)
    (p m : Nat) (keep tail : List Nat) (x : Nat)
    (hw : P.FormatMessageW c ≠ 0) (hatt : P.attempts = a :: rest)
    (hmalloc : a.malloc (initial_allocation (P.FormatMessageW c)) = some p)
    (htrans : a.WideCharToMultiByte (initial_allocation (P.FormatMessageW c))
      = transcode_result.written (keep ++ x :: tail))
    (hcalloc : P.calloc = some m)
    (h10 : x ≠ 10) (h13 : x ≠ 13) (htail : ∀ b ∈ tail, b = 10 ∨ b = 13) :
    ∃ r, _win32_code_domain.string_ref.construct P c = some r ∧
      r.ref.text = keep ++ [x] ∧ r.ref._end = ((keep ++ [x]).length : Nat) ∧
      r.ref._begin = pointer.block p ∧ r.ref._msg = some m := by
  refine ⟨⟨⟨pointer.block p, keep ++ x :: tail, ((keep ++ [x]).length : Nat), some m⟩,
    ((((((heap.empty.alloc p).read p
      (trim_reads ((keep ++ x :: tail).reverse ++ a.before)
        ((keep ++ x :: tail).length : Nat))).store p
      ((keep ++ [x]).length : Nat) 0).alloc m).store_count m 0).store_count m 1)⟩,
    ?_, ?_, rfl, rfl, rfl⟩
  · simp only [_win32_code_domain.string_ref.construct, hw, if_false, hatt, fetch_loop,
      hmalloc, htrans, hcalloc, trim_loop_text keep tail a.before x h10 h13 htail]
  · have happ : keep ++ x :: tail = (keep ++ [x]) ++ tail := by simp
    simp only [string_ref.text, Int.toNat_ofNat]
    rw [happ, List.take_left' rfl]


/-- The loop of the constructor reads and writes no byte through `_end`. -/
theorem fetch_loop_accessed (attempts : List attempt) (allocation : Nat) (h : heap) :
    (∀ h1, fetch_loop attempts allocation h = some (loop_exit.failure h1) →
      h1.accessed = h.accessed) ∧
    (∀ p before text h1,
      fetch_loop attempts allocation h = some (loop_exit.converted p before text h1) →
      h1.accessed = h.accessed) := by
  induction attempts generalizing allocation h with
  | nil =>
    constructor
    · intro h1 hf; simp [fetch_loop] at hf
    · intro p before text h1 hf; simp [fetch_loop] at hf
  | cons a rest ih =>
    cases hm : a.malloc allocation with
    | none =>
      constructor
      · intro h1 hf
        simp only [fetch_loop, hm, Option.some.injEq, loop_exit.failure.injEq] at hf
        subst hf
        rfl
      · intro p before text h1 hf
        simp [fetch_loop, hm] at hf
    | some p0 =>
      cases ht : a.WideCharToMultiByte allocation with
      | written t =>
        constructor
        · intro h1 hf
          simp [fetch_loop, hm, ht] at hf
        · intro p before text h1 hf
          simp only [fetch_loop, hm, ht, Option.some.injEq,
            loop_exit.converted.injEq] at hf
          obtain ⟨_, _, _, hh1⟩ := hf
          subst hh1
          rfl
      | failed err =>
        by_cases he : (err == ERROR_INSUFFICIENT_BUFFER) = true
        · have := ih (next_allocation allocation) ((h.alloc p0).free (pointer.block p0))
          constructor
          · intro h1 hf
            simp only [fetch_loop, hm, ht, he, if_true] at hf
            exact this.1 h1 hf
          · intro p before text h1 hf
            simp only [fetch_loop, hm, ht, he, if_true] at hf
            exact this.2 p before text h1 hf
        · constructor
          · intro h1 hf
            simp only [fetch_loop, hm, ht, he, Bool.false_eq_true, if_false,
              Option.some.injEq, loop_exit.failure.injEq] at hf
            subst hf
            rfl
          · intro p before text h1 hf
            simp [fetch_loop, hm, ht, he] at hf

/-- The text with which the loop is left by `break` is the answer of one of the passes,
and the bytes before the buffer are those of that pass. -/
theorem fetch_loop_converted_mem (attempts : List attempt) (allocation : Nat) (h : heap)
    (p : Nat) (before text : List Nat) (h1 : heap)
    (hf : fetch_loop attempts allocation h = some (loop_exit.converted p before text h1)) :
    ∃ a ∈ attempts, ∃ n, a.WideCharToMultiByte n = transcode_result.written text ∧
      a.before = before := by
  induction attempts generalizing allocation h with
  | nil => simp [fetch_loop] at hf
  | cons a rest ih =>
    cases hm : a.malloc allocation with
    | none => simp [fetch_loop, hm] at hf
    | some p0 =>
      cases ht : a.WideCharToMultiByte allocation with
      | written t =>
        simp only [fetch_loop, hm, ht, Option.some.injEq, loop_exit.converted.injEq] at hf
        obtain ⟨_, hb, htx, _⟩ := hf
        subst htx
        exact ⟨a, List.mem_cons_self _ _, allocation, ht, hb⟩
      | failed err =>
        by_cases he : (err == ERROR_INSUFFICIENT_BUFFER) = true
        · simp only [fetch_loop, hm, ht, he, if_true] at hf
          obtain ⟨b, hb, n, hn⟩ := ih _ _ hf
          exact ⟨b, List.mem_cons_of_mem _ hb, n, hn⟩
        · simp [fetch_loop, hm, ht, he] at hf

/-- A text with a byte other than CR and LF splits at the last such byte. -/
theorem exists_last_content (t : List Nat) (h : ∃ x ∈ t, x ≠ 10 ∧ x ≠ 13) :
    ∃ keep x tail, t = keep ++ x :: tail ∧ x ≠ 10 ∧ x ≠ 13 ∧
      ∀ b ∈ tail, b = 10 ∨ b = 13 := by
  induction t with
  | nil =>
    obtain ⟨x, hx, _⟩ := h
    simp at hx
  | cons y ys ih =>
    by_cases hys : ∃ x ∈ ys, x ≠ 10 ∧ x ≠ 13
    · obtain ⟨keep, x, tail, ht, h10, h13, htail⟩ := ih hys
      exact ⟨y :: keep, x, tail, by rw [ht]; rfl, h10, h13, htail⟩
    · have hall : ∀ b ∈ ys, b = 10 ∨ b = 13 := by
        intro b hb
        by_contra hne
        apply hys
        refine ⟨b, hb, ?_, ?_⟩
        · intro e; exact hne (Or.inl e)
        · intro e; exact hne (Or.inr e)
      obtain ⟨x, hx, h10, h13⟩ := h
      rcases List.mem_cons.mp hx with hxy | hxy
      · subst hxy
        exact ⟨[], x, ys, rfl, h10, h13, hall⟩
      · exact absurd ⟨x, hxy, h10, h13⟩ hys

/-- After a transcoding whose text has a byte other than CR and LF, the reads of the
trimming loop and the store of the new terminator are inside the buffer, between its
start and the terminator that the transcoding wrote. -/
theorem trimmed_accesses_inside (h : heap) (p : Nat) (before t : List Nat)
    (ht : ∃ x ∈ t, x ≠ 10 ∧ x ≠ 13) :
    ∀ a ∈ ((h.read p (trim_reads (t.reverse ++ before) (t.length : Nat))).store p
        (trim_loop (t.reverse ++ before) (t.length : Nat)) 0).accessed,
      a ∈ h.accessed ∨ ((0 : Int) ≤ a.offset ∧ a.offset ≤ (t.length : Nat)) := by
  obtain ⟨keep, x, tail, hsplit, h10, h13, htail⟩ := exists_last_content t ht
  subst hsplit
  intro a ha
  simp only [heap.store, heap.read, List.mem_append, List.mem_map, List.mem_singleton] at ha
  rcases ha with (ha | ⟨i, hi, hia⟩) | ha
  · exact Or.inl ha
  · right
    have := trim_reads_text keep tail before x h10 h13 htail i hi
    rw [← hia]
    exact ⟨this.1, le_of_lt this.2⟩
  · right
    rw [ha, trim_loop_text keep tail before x h10 h13 htail]
    simp only [List.length_append, List.length_cons, List.length_nil]
    push_cast
    omega
/-! ## Lemmas on the life of a shared message reference -/

theorem store_count_count (h : heap) (m v : Nat) : (h.store_count m v).count m = v := by
  simp [heap.store_count]

theorem store_count_freed (h : heap) (m v : Nat) : (h.store_count m v).freed = h.freed := rfl

/-- A copy of a holder of the counter block `m`, while the counter is not 0. -/
theorem copy_shared (assertions : Bool) (r : string_ref) (m : Nat) (h : heap)
    (hm : r._msg = some m) (hc : h.count m ≠ 0) :
    _win32_code_domain.string_ref._copy assertions r h
      = some (r, h.store_count m ((h.count m + 1) % 2 ^ 32)) := by
  have hc2 : (h.count m == 0) = false := beq_eq_false_iff_ne.mpr hc
  simp [_win32_code_domain.string_ref._copy, hm, hc2]

/-- The destructor of a holder of the counter block `m`. -/
theorem destroy_shared (r : string_ref) (m : Nat) (h : heap) (hm : r._msg = some m) :
    _win32_code_domain.string_ref.destroy r h
      = if h.count m = 1 then
          ((h.store_count m ((h.count m + 2 ^ 32 - 1) % 2 ^ 32)).free r._begin).free
            (pointer.block m)
        else h.store_count m ((h.count m + 2 ^ 32 - 1) % 2 ^ 32) := by
  simp [_win32_code_domain.string_ref.destroy, hm]

/-- Once no holder is live, no step is possible. -/
theorem run_no_holders (assertions : Bool) (h : heap) (ops : List lifecycle_op)
    (s1 : lifecycle) (hrun : lifecycle.run assertions ⟨[], h⟩ ops = some s1) :
    ops = [] ∧ s1 = ⟨[], h⟩ := by
  cases ops with
  | nil =>
    simp only [lifecycle.run, Option.some.injEq] at hrun
    exact ⟨rfl, hrun.symm⟩
  | cons op ops =>
    cases op <;> simp [lifecycle.run, lifecycle.step] at hrun

/-- A copy of a holder with the assertion compiled in, when the counter is 0: the
assertion fails. -/
theorem copy_asserting_at_zero (r : string_ref) (m : Nat) (h : heap)
    (hm : r._msg = some m) (hc : h.count m = 0) :
    _win32_code_domain.string_ref._copy true r h = none := by
  simp [_win32_code_domain.string_ref._copy, hm, hc]

/-- The peak is at least the number of holders at the start. -/
theorem peak_ge (ops : List lifecycle_op) : ∀ n, n ≤ lifecycle.peak n ops := by
  cases ops with
  | nil => intro n; exact Nat.le_refl n
  | cons op ops =>
    intro n
    cases op with
    | copy i => exact Nat.le_max_left _ _
    | destroy i => exact Nat.le_max_left _ _

/-- Without a live holder, only the empty sequence of steps is well formed. -/
theorem well_formed_zero (ops : List lifecycle_op)
    (h : lifecycle.well_formed 0 ops = true) : ops = [] := by
  cases ops with
  | nil => rfl
  | cons op ops => cases op <;> simp [lifecycle.well_formed] at h

/-- While fewer than `2 ^ 32` holders are live, every well-formed sequence of steps runs to
its end, with the assertion compiled in or not; the counter is the number of live
holders, nothing is released while a holder is live, and the buffer and the counter block
are released, once, by the destruction of the last holder. -/
theorem lifecycle_invariant (assertions : Bool) (r0 : string_ref) (m : Nat)
    (F : List pointer) (hm : r0._msg = some m) (ops : List lifecycle_op) :
    ∀ (s : lifecycle), (∀ r ∈ s.holders, r = r0) → s.holders ≠ [] →
      s.heap.count m = s.holders.length → s.heap.freed = F →
      lifecycle.well_formed s.holders.length ops = true →
      lifecycle.peak s.holders.length ops < 2 ^ 32 →
      ∃ s1, lifecycle.run assertions s ops = some s1 ∧
        s1.heap.count m = s1.holders.length ∧
        s1.holders.length + ops.countP lifecycle_op.is_destroy
          = s.holders.length + ops.countP lifecycle_op.is_copy ∧
        (s1.holders ≠ [] → s1.heap.freed = F) ∧
        (s1.holders = [] → s1.heap.freed = F ++ [r0._begin, pointer.block m]) := by
  induction ops with
  | nil =>
    intro s hall hne hcount hfreed hwf hpeak
    exact ⟨s, rfl, hcount, rfl, fun _ => hfreed, fun h => absurd h hne⟩
  | cons op ops ih =>
    intro s hall hne hcount hfreed hwf hpeak
    have hlen : 1 ≤ s.holders.length := by
      cases hs : s.holders with
      | nil => exact absurd hs hne
      | cons a l => simp
    cases op with
    | copy i =>
      simp only [List.countP_cons, lifecycle_op.is_copy, lifecycle_op.is_destroy,
        if_true, Bool.false_eq_true, if_false, Nat.add_zero]
      simp only [lifecycle.well_formed, Bool.and_eq_true, decide_eq_true_eq] at hwf
      simp only [lifecycle.peak] at hpeak
      obtain ⟨hi, hwf1⟩ := hwf
      have hpeak1 : lifecycle.peak (s.holders.length + 1) ops < 2 ^ 32 :=
        lt_of_le_of_lt (Nat.le_max_right _ _) hpeak
      have hlen1 : s.holders.length + 1 < 2 ^ 32 :=
        lt_of_le_of_lt (peak_ge ops _) hpeak1
      obtain ⟨r, hget⟩ : ∃ r, s.holders[i]? = some r :=
        ⟨s.holders[i], List.getElem?_eq_getElem hi⟩
      have hr : r = r0 := hall r (List.getElem?_mem hget)
      subst hr
      have hc : s.heap.count m ≠ 0 := by omega
      have hmod : (s.heap.count m + 1) % 2 ^ 32 = s.holders.length + 1 := by
        rw [hcount]; omega
      have hstep : lifecycle.step assertions s (lifecycle_op.copy i)
          = some ⟨s.holders ++ [r], s.heap.store_count m (s.holders.length + 1)⟩ := by
        simp only [lifecycle.step, hget, copy_shared assertions r m s.heap hm hc, hmod]
      have hlen2 : (s.holders ++ [r]).length = s.holders.length + 1 := by
        simp only [List.length_append, List.length_singleton]
      obtain ⟨s1, hrun1, h1, h2, h3, h4⟩ :=
        ih ⟨s.holders ++ [r], s.heap.store_count m (s.holders.length + 1)⟩
          (by
            intro x hx
            simp only [List.mem_append, List.mem_singleton] at hx
            rcases hx with hx | hx
            · exact hall x hx
            · exact hx)
          (by simp)
          (by simp [store_count_count])
          (by rw [store_count_freed]; exact hfreed)
          (by
            show lifecycle.well_formed (s.holders ++ [r]).length ops = true
            rw [hlen2]; exact hwf1)
          (by
            show lifecycle.peak (s.holders ++ [r]).length ops < 2 ^ 32
            rw [hlen2]; exact hpeak1)
      refine ⟨s1, ?_, h1, ?_, h3, h4⟩
      · simp only [lifecycle.run, hstep]
        exact hrun1
      · have h2b : s1.holders.length + List.countP lifecycle_op.is_destroy ops
            = (s.holders ++ [r]).length + List.countP lifecycle_op.is_copy ops := h2
        rw [hlen2] at h2b
        omega
    | destroy i =>
      simp only [List.countP_cons, lifecycle_op.is_copy, lifecycle_op.is_destroy,
        if_true, Bool.false_eq_true, if_false, Nat.add_zero]
      simp only [lifecycle.well_formed, Bool.and_eq_true, decide_eq_true_eq] at hwf
      simp only [lifecycle.peak] at hpeak
      obtain ⟨hi, hwf1⟩ := hwf
      have hpeak1 : lifecycle.peak (s.holders.length - 1) ops < 2 ^ 32 :=
        lt_of_le_of_lt (Nat.le_max_right _ _) hpeak
      have hlen0 : s.holders.length < 2 ^ 32 :=
        lt_of_le_of_lt (Nat.le_max_left _ _) hpeak
      obtain ⟨r, hget⟩ : ∃ r, s.holders[i]? = some r :=
        ⟨s.holders[i], List.getElem?_eq_getElem hi⟩
      have hr : r = r0 := hall r (List.getElem?_mem hget)
      subst hr
      have hmod : (s.heap.count m + 2 ^ 32 - 1) % 2 ^ 32 = s.holders.length - 1 := by
        rw [hcount]; omega
      have hstep : lifecycle.step assertions s (lifecycle_op.destroy i)
          = some ⟨s.holders.eraseIdx i,
              if s.heap.count m = 1 then
                ((s.heap.store_count m (s.holders.length - 1)).free r._begin).free
                  (pointer.block m)
              else s.heap.store_count m (s.holders.length - 1)⟩ := by
        simp only [lifecycle.step, hget, destroy_shared r m s.heap hm, hmod]
      have hlen2 : (s.holders.eraseIdx i).length = s.holders.length - 1 :=
        List.length_eraseIdx_of_lt hi
      by_cases hone : s.holders.length = 1
      · have hc1 : s.heap.count m = 1 := by rw [hcount]; exact hone
        have hnil : s.holders.eraseIdx i = [] := by
          apply List.length_eq_zero.mp
          rw [hlen2, hone]
        have hops : ops = [] := by
          apply well_formed_zero
          rw [hone] at hwf1
          exact hwf1
        subst hops
        simp only [hc1, if_true, hnil] at hstep
        refine ⟨⟨[], ((s.heap.store_count m (s.holders.length - 1)).free r._begin).free
            (pointer.block m)⟩, by simp only [lifecycle.run, hstep], ?_, ?_,
          fun h => absurd rfl h, fun _ => ?_⟩
        · simp [heap.free, heap.store_count, hone]
        · simp [hone]
        · simp [heap.free, heap.store_count, hfreed]
      · have hc1 : ¬ s.heap.count m = 1 := by rw [hcount]; exact hone
        simp only [hc1, if_false] at hstep
        obtain ⟨s1, hrun1, h1, h2, h3, h4⟩ :=
          ih ⟨s.holders.eraseIdx i, s.heap.store_count m (s.holders.length - 1)⟩
            (fun x hx => hall x (List.mem_of_mem_eraseIdx hx))
            (by
              intro hnil
              have h0 : (s.holders.eraseIdx i).length = 0 :=
                List.length_eq_zero.mpr hnil
              omega)
            (by simp [store_count_count, hlen2])
            (by rw [store_count_freed]; exact hfreed)
            (by
              show lifecycle.well_formed (s.holders.eraseIdx i).length ops = true
              rw [hlen2]; exact hwf1)
            (by
              show lifecycle.peak (s.holders.eraseIdx i).length ops < 2 ^ 32
              rw [hlen2]; exact hpeak1)
        refine ⟨s1, ?_, h1, ?_, h3, h4⟩
        · simp only [lifecycle.run, hstep]
          exact hrun1
        · have h2b : s1.holders.length + List.countP lifecycle_op.is_destroy ops
              = (s.holders.eraseIdx i).length + List.countP lifecycle_op.is_copy ops := h2
          rw [hlen2] at h2b
          omega

/-- A successful fetch leaves the counter of its counter block at 1. -/
theorem construct_counter (P : platform) (c : Nat) (r : message_result) (m : Nat)
    (hf : _win32_code_domain.string_ref.construct P c = some r)
    (hmsg : r.ref._msg = some m) : r.heap.count m = 1 := by
  simp only [_win32_code_domain.string_ref.construct] at hf
  by_cases hw : P.FormatMessageW c = 0
  · simp only [hw, if_true, Option.some.injEq] at hf
    subst hf
    simp [failure_ref] at hmsg
  · simp only [hw, if_false] at hf
    cases hfl : fetch_loop P.attempts (initial_allocation (P.FormatMessageW c))
        heap.empty with
    | none => simp [hfl] at hf
    | some exit =>
      cases exit with
      | failure h =>
        simp only [hfl, Option.some.injEq] at hf
        subst hf
        simp [failure_ref] at hmsg
      | converted p before text h =>
        cases hc : P.calloc with
        | none =>
          simp only [hfl, hc, Option.some.injEq] at hf
          subst hf
          simp [failure_ref] at hmsg
        | some m1 =>
          simp only [hfl, hc, Option.some.injEq] at hf
          subst hf
          simp only [Option.some.injEq] at hmsg
          subst hmsg
          simp [heap.store_count]

theorem run_append (assertions : Bool) (xs ys : List lifecycle_op) :
    ∀ s : lifecycle, lifecycle.run assertions s (xs ++ ys)
      = (lifecycle.run assertions s xs).bind (fun s1 => lifecycle.run assertions s1 ys) := by
  induction xs with
  | nil => intro s; rfl
  | cons x xs ih =>
    intro s
    simp only [List.cons_append, lifecycle.run]
    cases lifecycle.step assertions s x with
    | none => rfl
    | some s1 => exact ih s1

/-- Copies without assertions: the counter advances modulo `2 ^ 32`. -/
theorem run_copies (r0 : string_ref) (m : Nat) (hm : r0._msg = some m) (k : Nat) :
    ∀ (s : lifecycle) (l : List string_ref), s.holders = r0 :: l →
      s.heap.count m < 2 ^ 32 →
      ∃ s1, lifecycle.run false s (List.replicate k (lifecycle_op.copy 0)) = some s1 ∧
        s1.holders = s.holders ++ List.replicate k r0 ∧
        s1.heap.count m = (s.heap.count m + k) % 2 ^ 32 ∧
        s1.heap.freed = s.heap.freed := by
  induction k with
  | zero =>
    intro s l hs hc
    exact ⟨s, rfl, by simp, by rw [Nat.add_zero]; exact (Nat.mod_eq_of_lt hc).symm, rfl⟩
  | succ k ih =>
    intro s l hs hc
    have hget : s.holders[0]? = some r0 := by rw [hs]; simp
    have hcopy : _win32_code_domain.string_ref._copy false r0 s.heap
        = some (r0, s.heap.store_count m ((s.heap.count m + 1) % 2 ^ 32)) := by
      simp [_win32_code_domain.string_ref._copy, hm]
    obtain ⟨s1, h1, h2, h3, h4⟩ :=
      ih ⟨s.holders ++ [r0], s.heap.store_count m ((s.heap.count m + 1) % 2 ^ 32)⟩
        (l ++ [r0]) (by simp [hs])
        (by rw [store_count_count]; exact Nat.mod_lt _ (by norm_num))
    refine ⟨s1, ?_, ?_, ?_, ?_⟩
    · rw [List.replicate_succ]
      simp only [lifecycle.run, lifecycle.step, hget, hcopy]
      exact h1
    · rw [h2, List.replicate_succ]
      simp
    · rw [h3, store_count_count]
      omega
    · rw [h4, store_count_freed]

/-- Copies with the assertion compiled in run as without it while the counter does not
pass through 0. -/
theorem run_copies_asserting (r0 : string_ref) (m : Nat) (hm : r0._msg = some m) (k : Nat) :
    ∀ (s : lifecycle) (l : List string_ref), s.holders = r0 :: l →
      0 < s.heap.count m → s.heap.count m + k ≤ 2 ^ 32 →
      lifecycle.run true s (List.replicate k (lifecycle_op.copy 0))
        = lifecycle.run false s (List.replicate k (lifecycle_op.copy 0)) := by
  induction k with
  | zero => intro s l hs hc hk; rfl
  | succ k ih =>
    intro s l hs hc hk
    have hget : s.holders[0]? = some r0 := by rw [hs]; simp
    have hc0 : s.heap.count m ≠ 0 := by omega
    rw [List.replicate_succ]
    simp only [lifecycle.run, lifecycle.step, hget, copy_shared true r0 m s.heap hm hc0,
      copy_shared false r0 m s.heap hm hc0]
    cases k with
    | zero => rfl
    | succ j =>
      have hmod : (s.heap.count m + 1) % 2 ^ 32 = s.heap.count m + 1 := by omega
      exact ih ⟨s.holders ++ [r0], s.heap.store_count m ((s.heap.count m + 1) % 2 ^ 32)⟩
        (l ++ [r0]) (by simp [hs])
        (by rw [store_count_count, hmod]; omega)
        (by rw [store_count_count, hmod]; omega)

/-- With `K = 2 ^ 32`: after `K - 1` copies the counter has wrapped around to 0 while `K`
holders are live; the next copy finds the counter at 0, so its assertion fails, and
without the assertion it leaves the counter at 1, so that the destruction of one holder
releases the buffer and the counter block while `K` holders are live. -/
theorem wrap_releases_early (r0 : string_ref) (m : Nat) (hm : r0._msg = some m)
    (s0 : lifecycle) (hs : s0.holders = [r0]) (hc : s0.heap.count m = 1)
    (K : Nat) (hK : K = 2 ^ 32) :
    (∃ s1, lifecycle.run true s0 (List.replicate (K - 1) (lifecycle_op.copy 0)) = some s1 ∧
      lifecycle.run false s0 (List.replicate (K - 1) (lifecycle_op.copy 0)) = some s1 ∧
      s1.holders.length = K ∧ s1.heap.count m = 0 ∧ s1.heap.freed = s0.heap.freed) ∧
    lifecycle.run true s0 (List.replicate K (lifecycle_op.copy 0)) = none ∧
    (∃ s2, lifecycle.run false s0
        (List.replicate K (lifecycle_op.copy 0) ++ [lifecycle_op.destroy 0]) = some s2 ∧
      s2.holders.length = K ∧ s2.heap.count m = 0 ∧
      s2.heap.freed = s0.heap.freed ++ [r0._begin, pointer.block m]) := by
  obtain ⟨k, hk⟩ : ∃ k, K = k + 1 := ⟨2 ^ 32 - 1, by rw [hK]; norm_num⟩
  subst hk
  have hk1 : k + 1 - 1 = k := Nat.add_sub_cancel k 1
  have hkv : k = 2 ^ 32 - 1 := by omega
  obtain ⟨s1, h1, h2, h3, h4⟩ := run_copies r0 m hm k s0 [] hs (by rw [hc]; norm_num)
  have hcount1 : s1.heap.count m = 0 := by rw [h3, hc, hkv]; norm_num
  have hlen1 : s1.holders.length = k + 1 := by
    rw [h2, hs, List.length_append, List.length_replicate, List.length_singleton]
    omega
  have hasserting : lifecycle.run true s0 (List.replicate k (lifecycle_op.copy 0))
      = some s1 := by
    rw [run_copies_asserting r0 m hm k s0 [] hs (by rw [hc]; norm_num)
      (by rw [hc, hkv]; norm_num)]
    exact h1
  have hhold1 : ∃ l, s1.holders = r0 :: l := ⟨List.replicate k r0, by rw [h2, hs]; rfl⟩
  obtain ⟨l1, hl1⟩ := hhold1
  have hget1 : s1.holders[0]? = some r0 := by rw [hl1]; simp
  refine ⟨⟨s1, by rw [hk1]; exact hasserting, by rw [hk1]; exact h1, hlen1, hcount1, h4⟩,
    ?_, ?_⟩
  · rw [List.replicate_succ', run_append, hasserting]
    show lifecycle.run true s1 [lifecycle_op.copy 0] = none
    simp only [lifecycle.run, lifecycle.step, hget1,
      copy_asserting_at_zero r0 m s1.heap hm hcount1]
  · obtain ⟨s2, g1, g2, g3, g4⟩ :=
      run_copies r0 m hm (k + 1) s0 [] hs (by rw [hc]; norm_num)
    have hcount2 : s2.heap.count m = 1 := by rw [g3, hc, hkv]; norm_num
    have hhold2 : s2.holders = r0 :: List.replicate (k + 1) r0 := by rw [g2, hs]; rfl
    have hget2 : s2.holders[0]? = some r0 := by rw [hhold2]; simp
    have he2 : s2.holders.eraseIdx 0 = List.replicate (k + 1) r0 := by rw [hhold2]; rfl
    refine ⟨⟨List.replicate (k + 1) r0,
      ((s2.heap.store_count m ((s2.heap.count m + 2 ^ 32 - 1) % 2 ^ 32)).free
        r0._begin).free (pointer.block m)⟩, ?_, ?_, ?_, ?_⟩
    · rw [run_append, g1]
      show lifecycle.run false s2 [lifecycle_op.destroy 0] = _
      simp only [lifecycle.run, lifecycle.step, hget2, destroy_shared r0 m s2.heap hm,
        hcount2, if_true, he2]
    · exact List.length_replicate _ _
    · show (if m = m then (s2.heap.count m + 2 ^ 32 - 1) % 2 ^ 32 else _) = _
      rw [if_pos rfl, hcount2]
      norm_num
    · simp [heap.free, heap.store_count, g4]
/-! ## C11 -/

/-- C11: a kernel-error code built from the signed raw value `v` is a failure iff `v < 0`
and a success iff `v ≥ 0`. -/
theorem nt_failure_iff (E : Env) (v : Int) :
    ((nt_code E v).failure = true ↔ v < 0) ∧
    ((nt_code E v).success = true ↔ 0 ≤ v) := by
  unfold nt_code
  rw [failure_of_value, success_of_value, nt_code_domain_failure]
  simp [_nt_code_domain._failure]

/-! ## C12 -/

/-- C12: unmapped input yields the unknown sentinel: an OS-error value that is neither 0
nor a case of the table translates to -1, so the generic conversion of its code is the
unknown value; a negative kernel value that is not a case of the respective table
translates to -1 and to the maximal 32-bit unsigned value; the OS-error value 0
translates to 0. Each translation is a total function, so no input raises an error. -/
theorem unmapped_yields_unknown (E : Env) (c : Nat) (n : Int) :
    (c ≠ 0 → E.win32_code_to_generic_code c = none →
      _win32_code_domain._win32_code_to_errno E c = -1 ∧
      (win32_code E c).as_generic = some errc_unknown) ∧
    (n < 0 → E.nt_code_to_generic_code (to_unsigned n) = none →
      _nt_code_domain._nt_code_to_errno E n = -1 ∧
      (nt_code E n).as_generic = some errc_unknown) ∧
    (n < 0 → E.nt_code_to_win32_code (to_unsigned n) = none →
      _nt_code_domain._nt_code_to_win32_code E n = 2 ^ 32 - 1) ∧
    _win32_code_domain._win32_code_to_errno E 0 = 0 := by
  refine ⟨?_, ?_, ?_, ?_⟩
  · intro hc hnone
    have h1 : _win32_code_domain._win32_code_to_errno E c = -1 := by
      simp [_win32_code_domain._win32_code_to_errno, hc, hnone]
    refine ⟨h1, ?_⟩
    unfold win32_code
    rw [as_generic_of_value, win32_code_domain_generic_code]
    simp [_win32_code_domain._generic_code, h1, errc_unknown]
  · intro hn hnone
    have h1 : _nt_code_domain._nt_code_to_errno E n = -1 := by
      simp [_nt_code_domain._nt_code_to_errno, hn, hnone]
    refine ⟨h1, ?_⟩
    unfold nt_code
    rw [as_generic_of_value, nt_code_domain_generic_code]
    simp [_nt_code_domain._generic_code, h1, errc_unknown]
  · intro hn hnone
    simp [_nt_code_domain._nt_code_to_win32_code, hn, hnone, dword_minus_one_eq]
  · simp [_win32_code_domain._win32_code_to_errno]

/-- C12 at the scenario tables: the OS-error value 7 and the kernel value -1 have no
table entry. -/
theorem unmapped_yields_unknown_witness :
    (_win32_code_domain._win32_code_to_errno scenario_env 7 = -1 ∧
      (win32_code scenario_env 7).as_generic = some errc_unknown) ∧
    (_nt_code_domain._nt_code_to_errno scenario_env (-1) = -1 ∧
      (nt_code scenario_env (-1)).as_generic = some errc_unknown) ∧
    _nt_code_domain._nt_code_to_win32_code scenario_env (-1) = 2 ^ 32 - 1 :=
  ⟨(unmapped_yields_unknown scenario_env 7 (-1)).1 (by decide) (by decide),
   (unmapped_yields_unknown scenario_env 7 (-1)).2.1 (by decide) (by decide),
   (unmapped_yields_unknown scenario_env 7 (-1)).2.2.1 (by decide) (by decide)⟩

/-! ## C13 -/

/-- C13: erasure round-trips the value: for a typed code whose value is no wider than the
erased type, the erased code has the same domain pointer and emptiness, its first
`sizeof(value_type)` bytes are those of the typed value, so that its raw `value()` holds
the typed value's bit pattern in its low bytes, and reading it back as the typed value
gives exactly the typed value; so it is for a value given as an unsigned integer of `n`
bytes. -/
theorem erasure_round_trip (c : status_code_repr) (sizeof_erased : Nat)
    (following : List Nat) (D : status_code_domain) (n v : Nat)
    (hsize : c._value.length ≤ sizeof_erased) (hbytes : ∀ b ∈ c._value, b < 256) :
    (c.erase sizeof_erased following)._domain = c._domain ∧
    (c.erase sizeof_erased following).empty = c.empty ∧
    (c.erase sizeof_erased following)._value.take c._value.length = c._value ∧
    (c.erase sizeof_erased following).value % 256 ^ c._value.length
      = status_code_repr.le_value c._value ∧
    status_code_repr.of_erased false D c._value.length (c.erase sizeof_erased following)
      = some (status_code_repr.of_value D c._value) ∧
    (∀ d, c._domain = some d → d.id = D.id →
      status_code_repr.of_erased true D c._value.length (c.erase sizeof_erased following)
        = some (status_code_repr.of_value D c._value)) ∧
    (n ≤ sizeof_erased →
      (status_code_repr.erase sizeof_erased following
        (status_code_repr.of_value D (status_code_repr.le_bytes n v))).value % 256 ^ n
        = v % 256 ^ n) := by
  have hval := erase_value_eq sizeof_erased following c hsize
  have htake : (c.erase sizeof_erased following)._value.take c._value.length = c._value := by
    rw [hval, List.take_left']
    rfl
  refine ⟨rfl, rfl, htake, ?_, ?_, ?_, ?_⟩
  · unfold status_code_repr.value
    rw [hval, le_value_append, Nat.add_mul_mod_self_left,
      Nat.mod_eq_of_lt (le_value_lt _ hbytes)]
  · simp only [status_code_repr.of_erased, htake]
    rfl
  · intro d hd hid
    have hdom : (c.erase sizeof_erased following)._domain = some d := hd
    simp [status_code_repr.of_erased, htake, hdom, hid]
  · intro hn
    unfold status_code_repr.value
    have hlen : (status_code_repr.of_value D (status_code_repr.le_bytes n v))._value.length
        = n := le_bytes_length n v
    rw [erase_value_eq sizeof_erased following _ (by rw [hlen]; exact hn)]
    show status_code_repr.le_value
        (status_code_repr.le_bytes n v ++ _) % 256 ^ n = v % 256 ^ n
    rw [le_value_append, le_bytes_length, Nat.add_mul_mod_self_left, le_value_le_bytes,
      Nat.mod_mod]

/-- C13 at the OS-error code 5, four bytes wide, erased into eight bytes, the four bytes
after the value in memory being arbitrary. -/
theorem erasure_round_trip_witness :
    (status_code_repr.erase 8 [170, 187, 204, 221]
        ⟨some (win32_code_domain scenario_env), [5, 0, 0, 0]⟩)._value.take 4 = [5, 0, 0, 0] ∧
    (status_code_repr.erase 8 [170, 187, 204, 221]
        ⟨some (win32_code_domain scenario_env), [5, 0, 0, 0]⟩).value % 256 ^ 4 = 5 :=
  ⟨(erasure_round_trip ⟨some (win32_code_domain scenario_env), [5, 0, 0, 0]⟩ 8
      [170, 187, 204, 221] (win32_code_domain scenario_env) 4 5
      (by decide) (by decide)).2.2.1,
   (erasure_round_trip ⟨some (win32_code_domain scenario_env), [5, 0, 0, 0]⟩ 8
      [170, 187, 204, 221] (win32_code_domain scenario_env) 4 5
      (by decide) (by decide)).2.2.2.1⟩

/-! ## C14 -/

/-- C14: `message()` of an empty code, through the type-erased view or through the typed
code, is the static reference to the text `(empty)`: it has no counter block, the heap
log is empty and the answers of the platform are not consulted; for a non-empty code
`message()` is exactly the `_message` of the code's domain on that code. -/
theorem message_of_empty_and_nonempty (D d : status_code_domain) (v : Int) (P : platform) :
    status_code.message ⟨none, v⟩ P
      = some ⟨string_ref.of_literal "(empty)", heap.empty⟩ ∧
    status_code.message_typed D ⟨none, v⟩ P
      = some ⟨string_ref.of_literal "(empty)", heap.empty⟩ ∧
    (string_ref.of_literal "(empty)").text = literal "(empty)" ∧
    (string_ref.of_literal "(empty)")._msg = none ∧
    (string_ref.of_literal "(empty)")._begin = pointer.literal "(empty)" ∧
    heap.empty.allocated = [] ∧
    status_code.message ⟨some d, v⟩ P = d._message ⟨d.id, v⟩ P ∧
    status_code.message_typed d ⟨some d, v⟩ P = d._message ⟨d.id, v⟩ P :=
  ⟨rfl, rfl, by decide, rfl, rfl, rfl, rfl, rfl⟩

/-! ## C17 -/

/-- C17: moving a message reference transfers ownership without touching the counter: the
destination holds the members of the source (`_begin`, `_end`, the counter block), the
source's counter block pointer is null afterwards, the heap, and with it every counter, is
unchanged, and destroying the moved-from source leaves the heap unchanged: no decrement
and nothing freed. -/
theorem move_transfers_ownership (self : string_ref) (h : heap) :
    (_win32_code_domain.string_ref._move self h).1 = self ∧
    (_win32_code_domain.string_ref._move self h).1._begin = self._begin ∧
    (_win32_code_domain.string_ref._move self h).1._end = self._end ∧
    (_win32_code_domain.string_ref._move self h).1._msg = self._msg ∧
    (_win32_code_domain.string_ref._move self h).2.1._msg = none ∧
    (_win32_code_domain.string_ref._move self h).2.2 = h ∧
    _win32_code_domain.string_ref.destroy
        (_win32_code_domain.string_ref._move self h).2.1
        (_win32_code_domain.string_ref._move self h).2.2 = h := by
  obtain ⟨b, bs, e, m⟩ := self
  cases m with
  | none =>
    simp [_win32_code_domain.string_ref._move, _win32_code_domain.string_ref.destroy]
  | some m =>
    simp [_win32_code_domain.string_ref._move, _win32_code_domain.string_ref.destroy]

/-! ## C20 -/

/-- C20, refuted as stated: with the assertion of the constructor compiled in, the
construction of an OS-error code from an erased code that carries the kernel-error domain
fails the assertion `v.domain() == domain()` and produces no code; so does the
construction from an empty erased code. -/
theorem of_erased_assertion_fails :
    (status_code_repr.of_erased true (win32_code_domain scenario_env) 4
      ⟨some (nt_code_domain scenario_env), [5, 0, 0, 0, 0, 0, 0, 0]⟩).isNone = true ∧
    (status_code_repr.of_erased true (win32_code_domain scenario_env) 4
      ⟨none, [5, 0, 0, 0, 0, 0, 0, 0]⟩).isNone = true := by
  decide

/-- C20, amended: with the assertion compiled out (`NDEBUG`, or before C++14), explicit
construction of a typed code from any erased code, empty or of another domain, gives the
non-empty code of the target domain whose value is the erased value reinterpreted;
with the assertion compiled in it does so for every erased code whose domain has the
identity of the target domain; and whenever the construction gives a code, that code is
non-empty, of the target domain, and holds the reinterpreted value. -/
theorem of_erased_attaches_domain (D : status_code_domain) (sizeof_value : Nat)
    (e : status_code_repr) :
    status_code_repr.of_erased false D sizeof_value e
      = some ⟨some D, e._value.take sizeof_value⟩ ∧
    (∀ d, e._domain = some d → d.id = D.id →
      status_code_repr.of_erased true D sizeof_value e
        = some ⟨some D, e._value.take sizeof_value⟩) ∧
    (∀ assertions c, status_code_repr.of_erased assertions D sizeof_value e = some c →
      c._domain = some D ∧ c.empty = false ∧ c._value = e._value.take sizeof_value) := by
  refine ⟨rfl, ?_, ?_⟩
  · intro d hd hid
    simp [status_code_repr.of_erased, hd, hid, status_code_repr.of_value]
  · intro assertions c hc
    obtain ⟨ed, ev⟩ := e
    cases assertions with
    | false =>
      simp only [status_code_repr.of_erased, status_code_repr.of_value] at hc
      simp only [Bool.false_eq_true, if_false, Option.some.injEq] at hc
      subst hc
      exact ⟨rfl, rfl, rfl⟩
    | true =>
      cases ed with
      | none => simp [status_code_repr.of_erased] at hc
      | some d =>
        simp only [status_code_repr.of_erased, status_code_repr.of_value, if_true] at hc
        by_cases hid : (d.id == D.id) = true
        · simp only [hid, if_true, Option.some.injEq] at hc
          subst hc
          exact ⟨rfl, rfl, rfl⟩
        · simp [hid] at hc

/-- C20 amended, at an erased OS-error code 5 read back as an OS-error code with the
assertion compiled in. -/
theorem of_erased_attaches_domain_witness :
    status_code_repr.of_erased true (win32_code_domain scenario_env) 4
        ⟨some (win32_code_domain scenario_env), [5, 0, 0, 0, 0, 0, 0, 0]⟩
      = some ⟨some (win32_code_domain scenario_env), [5, 0, 0, 0]⟩ :=
  (of_erased_attaches_domain (win32_code_domain scenario_env) 4
    ⟨some (win32_code_domain scenario_env), [5, 0, 0, 0, 0, 0, 0, 0]⟩).2.1
    (win32_code_domain scenario_env) rfl rfl

/-! ## C18 -/

/-- C18, the code at the failing input: for a message of one character the initial buffer
size is 1 and growing it by a quarter leaves it at 1 (as it leaves 3 at 3, the initial
size for two characters); `WideCharToMultiByte` needs two bytes and reports a buffer that
is too small on every pass, so after any number of passes the constructor, of either
domain, has not produced a reference. -/
theorem retry_loop_stuck (passes : Nat) (c : Nat) (n : Int) :
    initial_allocation 1 = 1 ∧ next_allocation 1 = 1 ∧
    initial_allocation 2 = 3 ∧ next_allocation 3 = 3 ∧
    _win32_code_domain.string_ref.construct (one_character_platform passes) c = none ∧
    _nt_code_domain.string_ref.construct (one_character_platform passes) n = none := by
  have hinit : initial_allocation 1 = 1 := by decide
  refine ⟨hinit, by decide, by decide, by decide, ?_, ?_⟩
  · have hw : (one_character_platform passes).FormatMessageW c = 1 := rfl
    simp only [_win32_code_domain.string_ref.construct, hw, hinit,
      fetch_loop_one_character]
    rfl
  · have hw : (one_character_platform passes).FormatMessageW n = 1 := rfl
    simp only [_nt_code_domain.string_ref.construct, hw, hinit,
      fetch_loop_one_character]
    rfl

/-! ## C19 -/

/-- C19, the code at the failing input: for the message `"\r\n"` the trimming loop reads
the positions 1 and 0 of the buffer and then position -1, the byte before the buffer;
when that byte is itself a line feed, the constructor leaves `_end` one byte before
`_begin`. -/
theorem trim_reads_before_buffer :
    trim_reads (([13, 10] : List Nat).reverse ++ [0]) 2 = [1, 0, -1] ∧
    trim_loop (([13, 10] : List Nat).reverse ++ [10]) 2 = -1 ∧
    (_win32_code_domain.string_ref.construct (line_ending_platform 10) 0).map
      (fun r => r.ref._end) = some (-1) ∧
    (_nt_code_domain.string_ref.construct (line_ending_platform 10) 0).map
      (fun r => r.ref._end) = some (-1) := by
  decide

/-! ## C15 -/

/-- C15: message construction from a platform code is fail-safe, for every raw code and
every platform whose transcoded texts have a byte other than CR and LF. Whenever the
constructor ends without a counter block, the reference is the static one with the text
`failed to get message from system`, every buffer obtained on the way has been freed, and
every byte read or written through `_end` lies inside a buffer, between its start and the
terminator of a transcoded text; and it ends so when `FormatMessageW` returns 0, and
when, after any number of passes that found the buffer too small, `malloc` returns null,
or the transcoding fails with another error, or the transcoding succeeds and `calloc`
returns null. It holds for the constructor of the kernel-error domain, and the one of the
OS-error domain is the same function of the platform's answers. -/
theorem fetch_fail_safe (P : platform) (c : Int) (k : Nat)
    (hcontent : ∀ a ∈ P.attempts, ∀ n t,
      a.WideCharToMultiByte n = transcode_result.written t → ∃ x ∈ t, x ≠ 10 ∧ x ≠ 13) :
    (∀ r, _nt_code_domain.string_ref.construct P c = some r → r.ref._msg = none →
      r.ref = failure_ref ∧
      r.ref.text = literal "failed to get message from system" ∧
      r.heap.freed = r.heap.allocated.map pointer.block ∧
      ∀ x ∈ r.heap.accessed, (0 : Int) ≤ x.offset ∧
        ∃ a ∈ P.attempts, ∃ n t,
          a.WideCharToMultiByte n = transcode_result.written t ∧
          x.offset ≤ (t.length : Nat)) ∧
    (P.FormatMessageW c = 0 →
      ∃ r, _nt_code_domain.string_ref.construct P c = some r ∧ r.ref._msg = none) ∧
    (∀ (retries : List attempt) (a : attempt) (rest : List attempt),
      P.FormatMessageW c ≠ 0 → P.attempts = retries ++ a :: rest →
      (∀ i (hi : i < retries.length),
        (retries[i].malloc
          (next_allocation^[i] (initial_allocation (P.FormatMessageW c)))).isSome = true ∧
        retries[i].WideCharToMultiByte
          (next_allocation^[i] (initial_allocation (P.FormatMessageW c)))
          = transcode_result.failed ERROR_INSUFFICIENT_BUFFER) →
      (a.malloc (next_allocation^[retries.length]
          (initial_allocation (P.FormatMessageW c))) = none ∨
        (∃ p e, a.malloc (next_allocation^[retries.length]
            (initial_allocation (P.FormatMessageW c))) = some p ∧
          a.WideCharToMultiByte (next_allocation^[retries.length]
            (initial_allocation (P.FormatMessageW c))) = transcode_result.failed e ∧
          e ≠ ERROR_INSUFFICIENT_BUFFER) ∨
        (∃ p t, a.malloc (next_allocation^[retries.length]
            (initial_allocation (P.FormatMessageW c))) = some p ∧
          a.WideCharToMultiByte (next_allocation^[retries.length]
            (initial_allocation (P.FormatMessageW c))) = transcode_result.written t ∧
          P.calloc = none)) →
      ∃ r, _nt_code_domain.string_ref.construct P c = some r ∧ r.ref._msg = none) ∧
    _win32_code_domain.string_ref.construct P k
      = _nt_code_domain.string_ref.construct P (k : Int) := by
  have htext : failure_ref.text = literal "failed to get message from system" := by decide
  refine ⟨?_, ?_, ?_, rfl⟩
  · intro r hr hmsg
    simp only [_nt_code_domain.string_ref.construct] at hr
    by_cases hw : P.FormatMessageW c = 0
    · simp only [hw, if_true, Option.some.injEq] at hr
      subst hr
      refine ⟨rfl, htext, rfl, ?_⟩
      intro x hx
      simp [heap.empty] at hx
    · simp only [hw, if_false] at hr
      cases hfl : fetch_loop P.attempts (initial_allocation (P.FormatMessageW c))
          heap.empty with
      | none => simp [hfl] at hr
      | some exit =>
        have hheap := fetch_loop_heap P.attempts
          (initial_allocation (P.FormatMessageW c)) heap.empty rfl
        have hacc := fetch_loop_accessed P.attempts
          (initial_allocation (P.FormatMessageW c)) heap.empty
        cases exit with
        | failure h =>
          simp only [hfl, Option.some.injEq] at hr
          subst hr
          refine ⟨rfl, htext, hheap.1 h hfl, ?_⟩
          intro x hx
          rw [hacc.1 h hfl] at hx
          simp [heap.empty] at hx
        | converted p before text h =>
          cases hc : P.calloc with
          | none =>
            simp only [hfl, hc, Option.some.injEq] at hr
            subst hr
            obtain ⟨a, ha, n, hn, _⟩ := fetch_loop_converted_mem _ _ _ _ _ _ _ hfl
            refine ⟨rfl, htext, ?_, ?_⟩
            · have := hheap.2 p before text h hfl
              simpa [heap.free, heap.store, heap.read] using this
            · intro x hx
              have hx1 : x ∈ ((h.read p (trim_reads (text.reverse ++ before)
                  (text.length : Nat))).store p
                  (trim_loop (text.reverse ++ before) (text.length : Nat)) 0).accessed := hx
              rcases trimmed_accesses_inside h p before text (hcontent a ha n text hn)
                x hx1 with hin | hin
              · rw [hacc.2 p before text h hfl] at hin
                simp [heap.empty] at hin
              · exact ⟨hin.1, a, ha, n, text, hn, hin.2⟩
          | some m =>
            simp only [hfl, hc, Option.some.injEq] at hr
            subst hr
            simp at hmsg
  · intro hw
    exact ⟨⟨failure_ref, heap.empty⟩,
      by simp [_nt_code_domain.string_ref.construct, hw], rfl⟩
  · intro retries a rest hw hatt hret hfail
    obtain ⟨h1, hh1⟩ := fetch_loop_retries retries (a :: rest)
      (initial_allocation (P.FormatMessageW c)) heap.empty hret
    simp only [_nt_code_domain.string_ref.construct, hw, if_false, hatt, hh1]
    rcases hfail with hnull | ⟨p, e, hp, he, hne⟩ | ⟨p, t, hp, ht, hc⟩
    · exact ⟨⟨failure_ref, h1⟩, by simp [fetch_loop, hnull], rfl⟩
    · have hne2 : (e == ERROR_INSUFFICIENT_BUFFER) = false := beq_eq_false_iff_ne.mpr hne
      exact ⟨⟨failure_ref, (h1.alloc p).free (pointer.block p)⟩,
        by simp [fetch_loop, hp, he, hne2], rfl⟩
    · exact ⟨⟨failure_ref,
        (((h1.alloc p).read p (trim_reads (t.reverse ++ a.before) (t.length : Nat))).store p
          (trim_loop (t.reverse ++ a.before) (t.length : Nat)) 0).free (pointer.block p)⟩,
        by simp [fetch_loop, hp, ht, hc], rfl⟩

/-- C15 at a platform where the first buffer is too small, the second one receives the
text `Access is denied.` with its line ending, and `calloc` returns null: the constructor
ends with the fallback text and both buffers freed, having read the bytes 18, 17 and 16
of the second buffer and stored the terminator in byte 17. -/
theorem fetch_fail_safe_witness :
    (_nt_code_domain.string_ref.construct calloc_null_platform 5).map
      (fun r => (r.ref.text, r.ref._msg, r.heap.allocated, r.heap.freed, r.heap.accessed))
      = some (literal "failed to get message from system", none, [4096, 4160],
          [pointer.block 4096, pointer.block 4160],
          [⟨4160, 18, none⟩, ⟨4160, 17, none⟩, ⟨4160, 16, none⟩, ⟨4160, 17, some 0⟩]) ∧
    (∃ r, _nt_code_domain.string_ref.construct calloc_null_platform 5 = some r ∧
      r.ref._msg = none) ∧
    (∀ r, _nt_code_domain.string_ref.construct calloc_null_platform 5 = some r →
      r.ref._msg = none →
      r.ref = failure_ref ∧ r.heap.freed = r.heap.allocated.map pointer.block ∧
      ∀ x ∈ r.heap.accessed, (0 : Int) ≤ x.offset) := by
  have hcontent : ∀ a ∈ calloc_null_platform.attempts, ∀ n t,
      a.WideCharToMultiByte n = transcode_result.written t →
      ∃ x ∈ t, x ≠ 10 ∧ x ≠ 13 := by
    intro a ha n t ht
    simp only [calloc_null_platform, List.mem_cons, List.mem_singleton,
      List.not_mem_nil, or_false] at ha
    rcases ha with ha | ha
    · subst ha
      simp at ht
    · subst ha
      simp only [transcode_result.written.injEq] at ht
      subst ht
      exact ⟨65, by decide, by decide, by decide⟩
  refine ⟨rfl, ?_, ?_⟩
  · exact (fetch_fail_safe calloc_null_platform 5 5 hcontent).2.2.1
      [⟨fun _ => some 4096, [0],
        fun _ => transcode_result.failed ERROR_INSUFFICIENT_BUFFER⟩]
      ⟨fun _ => some 4160, [0],
        fun _ => transcode_result.written (literal "Access is denied." ++ [13, 10])⟩ []
      (by decide) rfl
      (by
        intro i hi
        have hi0 : i = 0 := by simpa using hi
        subst hi0
        exact ⟨rfl, rfl⟩)
      (Or.inr (Or.inr ⟨4160, _, rfl, rfl, rfl⟩))
  · intro r hr hmsg
    have h := (fetch_fail_safe calloc_null_platform 5 5 hcontent).1 r hr hmsg
    exact ⟨h.1, h.2.2.1, fun x hx => (h.2.2.2 x hx).1⟩
/-! ## C16 -/

/-- A successfully fetched message starts with counter 1 and one holder; over every
well-formed sequence of copies and destructions during which fewer than `2 ^ 32` holders
are live at once, with the assertion compiled in or not, every step is carried out, the
counter is the number of live holders, nothing is released while a holder is live, and
after `N` copies and `N + 1` destructions the text buffer and the counter block have been
released exactly once; the destructor releases them exactly when it finds the counter at
1, leaving it at 0. -/
theorem refcount_lifecycle (assertions : Bool) (P : platform) (c : Nat)
    (r : message_result) (m : Nat) (ops : List lifecycle_op)
    (hfetch : _win32_code_domain.string_ref.construct P c = some r)
    (hmsg : r.ref._msg = some m)
    (hwf : lifecycle.well_formed 1 ops = true)
    (hpeak : lifecycle.peak 1 ops < 2 ^ 32) :
    r.heap.count m = 1 ∧
    (∃ s, lifecycle.run assertions ⟨[r.ref], r.heap⟩ ops = some s ∧
      s.heap.count m = s.holders.length ∧
      s.holders.length + ops.countP lifecycle_op.is_destroy
        = 1 + ops.countP lifecycle_op.is_copy ∧
      (s.holders ≠ [] → s.heap.freed = r.heap.freed) ∧
      (ops.countP lifecycle_op.is_destroy = ops.countP lifecycle_op.is_copy + 1 →
        s.holders = [] ∧ s.heap.count m = 0 ∧
        s.heap.freed = r.heap.freed ++ [r.ref._begin, pointer.block m])) ∧
    (∀ h : heap, h.count m = 1 →
      (_win32_code_domain.string_ref.destroy r.ref h).count m = 0 ∧
      (_win32_code_domain.string_ref.destroy r.ref h).freed
        = h.freed ++ [r.ref._begin, pointer.block m]) ∧
    (∀ h : heap, h.count m ≠ 1 →
      (_win32_code_domain.string_ref.destroy r.ref h).freed = h.freed) := by
  have hcount := construct_counter P c r m hfetch hmsg
  obtain ⟨s, hrun, h1, h2, h3, h4⟩ :=
    lifecycle_invariant assertions r.ref m r.heap.freed hmsg ops
      ⟨[r.ref], r.heap⟩ (by simp) (by simp) (by simpa using hcount) rfl hwf hpeak
  simp only [List.length_singleton] at h2
  refine ⟨hcount, ⟨s, hrun, h1, h2, h3, ?_⟩, ?_, ?_⟩
  · intro hN
    have hlen : s.holders.length = 0 := by omega
    have hnil : s.holders = [] := List.length_eq_zero.mp hlen
    exact ⟨hnil, by rw [h1, hlen], h4 hnil⟩
  · intro h hc
    rw [destroy_shared r.ref m h hmsg, if_pos hc]
    constructor
    · simp [heap.free, heap.store_count, hc]
    · simp [heap.free, heap.store_count]
  · intro h hc
    rw [destroy_shared r.ref m h hmsg, if_neg hc]
    rfl

/-- C16, the code at the failing input: the counter is a 32-bit unsigned integer.
Starting from the fetched message of `access_denied_platform` (counter 1, one holder),
after `2 ^ 32 - 1` copies the counter has wrapped around to 0 while `2 ^ 32` holders are
live, in either build; the next copy finds the counter at 0, so with the assertion
compiled in `assert(count != 0)` fails, and without it the counter is left at 1 and the
destruction of one holder then takes it from 1 to 0 and releases the text buffer and the
counter block while `2 ^ 32` holders are live. -/
theorem refcount_wraps :
    ∃ s0, access_denied_message = some s0 ∧ s0.holders.length = 1 ∧
      s0.heap.count 8192 = 1 ∧
      (∃ s1,
        lifecycle.run true s0 (List.replicate (2 ^ 32 - 1) (lifecycle_op.copy 0))
          = some s1 ∧
        lifecycle.run false s0 (List.replicate (2 ^ 32 - 1) (lifecycle_op.copy 0))
          = some s1 ∧
        s1.holders.length = 2 ^ 32 ∧ s1.heap.count 8192 = 0 ∧ s1.heap.freed = []) ∧
      lifecycle.run true s0 (List.replicate (2 ^ 32) (lifecycle_op.copy 0)) = none ∧
      (∃ s2,
        lifecycle.run false s0
          (List.replicate (2 ^ 32) (lifecycle_op.copy 0) ++ [lifecycle_op.destroy 0])
          = some s2 ∧
        s2.holders.length = 2 ^ 32 ∧ s2.heap.count 8192 = 0 ∧
        s2.heap.freed = [pointer.block 4096, pointer.block 8192]) := by
  have h0 : access_denied_message
      = some ⟨[⟨pointer.block 4096, literal "Access is denied." ++ [13, 10], 17, some 8192⟩],
          (((((heap.empty.alloc 4096).read 4096 [18, 17, 16]).store 4096 17 0).alloc
            8192).store_count 8192 0).store_count 8192 1⟩ :=
    rfl
  have h := wrap_releases_early
    ⟨pointer.block 4096, literal "Access is denied." ++ [13, 10], 17, some 8192⟩ 8192 rfl
    ⟨[⟨pointer.block 4096, literal "Access is denied." ++ [13, 10], 17, some 8192⟩],
      (((((heap.empty.alloc 4096).read 4096 [18, 17, 16]).store 4096 17 0).alloc
        8192).store_count 8192 0).store_count 8192 1⟩
    rfl rfl (2 ^ 32) rfl
  exact ⟨_, h0, rfl, rfl, h.1, h.2.1, h.2.2⟩

/-- The lifecycle at the fetched message of `access_denied_platform`, with the assertion
compiled in: one copy and two destructions release the buffer at 4096 and the counter
block at 8192 once. -/
theorem refcount_lifecycle_example :
    ∃ r s, _win32_code_domain.string_ref.construct access_denied_platform 5 = some r ∧
      lifecycle.run true ⟨[r.ref], r.heap⟩
        [lifecycle_op.copy 0, lifecycle_op.destroy 1, lifecycle_op.destroy 0] = some s ∧
      s.holders = [] ∧ s.heap.count 8192 = 0 ∧
      s.heap.freed = [pointer.block 4096, pointer.block 8192] := by
  obtain ⟨s, hrun, _, _, _, hend⟩ :=
    (refcount_lifecycle true access_denied_platform 5
      ⟨⟨pointer.block 4096, literal "Access is denied." ++ [13, 10], 17, some 8192⟩,
        (((((heap.empty.alloc 4096).read 4096 [18, 17, 16]).store 4096 17 0).alloc
          8192).store_count 8192 0).store_count 8192 1⟩ 8192
      [lifecycle_op.copy 0, lifecycle_op.destroy 1, lifecycle_op.destroy 0]
      rfl rfl (by decide) (by decide)).2.1
  exact ⟨_, s, rfl, hrun, (hend rfl).1, (hend rfl).2.1, (hend rfl).2.2⟩
/-! ## C21 -/

/-- C21: assignment from a raw value changes only the value: after `c = v` the stored
value is `v` and the domain reference is the one `c` had, so the code is empty exactly
when it was before; an empty code stays empty, neither success nor failure, and a code of
domain `d` becomes the code that the value constructor of `d` builds from `v`. -/
theorem assign_changes_only_value (c : status_code) (v : Int) :
    (c.assign v).value = v ∧
    (c.assign v)._domain = c._domain ∧
    (c.assign v).empty = c.empty ∧
    (c.empty = true →
      (c.assign v).empty = true ∧ (c.assign v).success = false ∧
      (c.assign v).failure = false) ∧
    (∀ d : status_code_domain, c._domain = some d →
      c.assign v = status_code.of_value d v ∧
      (c.assign v).failure = d._failure ⟨d.id, v⟩) := by
  cases c with
  | mk dom val =>
    cases dom with
    | none =>
      refine ⟨rfl, rfl, rfl, fun _ => ⟨rfl, rfl, rfl⟩, ?_⟩
      intro d hd
      cases hd
    | some d0 =>
      refine ⟨rfl, rfl, rfl, ?_, ?_⟩
      · intro h
        simp [status_code.empty] at h
      · intro d hd
        simp only [Option.some.injEq] at hd
        subst hd
        exact ⟨rfl, rfl⟩

/-- C21 at a default-constructed code assigned the value 5: it holds 5 and is still
empty, neither success nor failure. -/
theorem assign_changes_only_value_witness :
    (status_code.default_constructed.assign 5).value = 5 ∧
    status_code.default_constructed.empty = true ∧
    (status_code.default_constructed.assign 5).empty = true ∧
    (status_code.default_constructed.assign 5).success = false ∧
    (status_code.default_constructed.assign 5).failure = false :=
  ⟨(assign_changes_only_value status_code.default_constructed 5).1, rfl,
   (assign_changes_only_value status_code.default_constructed 5).2.2.2.1 rfl⟩

/-! ## C22 -/

/-- C22: the unknown sentinel is compared as an ordinary value on the strict path. An
OS-error code whose value is neither 0 nor a case of the table, and a negative kernel code
whose value is not a case of the generic table, are strictly equivalent to the generic
code holding the unknown value -1; a negative kernel code whose value is not a case of the
OS-error table is strictly equivalent to the OS-error code `0xFFFFFFFF`. So two different
unmapped kernel codes, not strictly equivalent to each other, are both strictly
equivalent to the same sentinel-valued codes. -/
theorem unknown_sentinel_strictly_equivalent (E : Env) (w : Nat) (n m : Int) :
    (E.generic_id ≠ win32_id → w ≠ 0 → E.win32_code_to_generic_code w = none →
      (win32_code E w).strictly_equivalent (generic_code E errc_unknown) = true) ∧
    (E.generic_id ≠ nt_id → n < 0 → E.nt_code_to_generic_code (to_unsigned n) = none →
      (nt_code E n).strictly_equivalent (generic_code E errc_unknown) = true) ∧
    (n < 0 → E.nt_code_to_win32_code (to_unsigned n) = none →
      (nt_code E n).strictly_equivalent (win32_code E 0xFFFFFFFF) = true) ∧
    (E.generic_id ≠ nt_id → n < 0 → m < 0 → n ≠ m →
      E.nt_code_to_generic_code (to_unsigned n) = none →
      E.nt_code_to_generic_code (to_unsigned m) = none →
      E.nt_code_to_win32_code (to_unsigned n) = none →
      E.nt_code_to_win32_code (to_unsigned m) = none →
      (nt_code E n).strictly_equivalent (generic_code E errc_unknown) = true ∧
      (nt_code E m).strictly_equivalent (generic_code E errc_unknown) = true ∧
      (nt_code E n).strictly_equivalent (win32_code E 0xFFFFFFFF) = true ∧
      (nt_code E m).strictly_equivalent (win32_code E 0xFFFFFFFF) = true ∧
      (nt_code E n).strictly_equivalent (nt_code E m) = false) := by
  have hwg : E.generic_id ≠ win32_id → w ≠ 0 → E.win32_code_to_generic_code w = none →
      ∀ d : status_code_domain, d.id = E.generic_id →
        (win32_code E w).strictly_equivalent (status_code.of_value d (-1)) = true := by
    intro hg hw hnone d hd
    unfold win32_code
    rw [strictly_equivalent_of_value, win32_code_domain_equivalent, hd,
      win32_equivalent_iff]
    right
    refine ⟨hg, rfl, ?_⟩
    show (-1 : Int) = _win32_code_domain._win32_code_to_errno E ((w : Int).toNat)
    simp [_win32_code_domain._win32_code_to_errno, hw, hnone]
  have hng : ∀ k : Int, E.generic_id ≠ nt_id → k < 0 →
      E.nt_code_to_generic_code (to_unsigned k) = none →
      ∀ d : status_code_domain, d.id = E.generic_id →
        (nt_code E k).strictly_equivalent (status_code.of_value d (-1)) = true := by
    intro k hg hk hnone d hd
    unfold nt_code
    rw [strictly_equivalent_of_value, nt_code_domain_equivalent, hd, nt_equivalent_iff]
    right
    refine ⟨hg, Or.inl ⟨rfl, ?_⟩⟩
    show (-1 : Int) = _nt_code_domain._nt_code_to_errno E k
    have hk0 : ¬ (0 ≤ k) := not_le.mpr hk
    simp [_nt_code_domain._nt_code_to_errno, hk0, hnone]
  have hnw : ∀ k : Int, k < 0 → E.nt_code_to_win32_code (to_unsigned k) = none →
      ∀ d : status_code_domain, d.id = win32_id →
        (nt_code E k).strictly_equivalent
          (status_code.of_value d ((0xFFFFFFFF : Nat) : Int)) = true := by
    intro k hk hnone d hd
    unfold nt_code
    rw [strictly_equivalent_of_value, nt_code_domain_equivalent, hd, nt_equivalent_iff]
    right
    refine ⟨win32_id_ne_nt_id, Or.inr ⟨rfl, ?_⟩⟩
    show ((0xFFFFFFFF : Nat) : Int) = (_nt_code_domain._nt_code_to_win32_code E k : Int)
    have hk0 : ¬ (0 ≤ k) := not_le.mpr hk
    simp [_nt_code_domain._nt_code_to_win32_code, hk0, hnone, dword_minus_one_eq]
  refine ⟨?_, ?_, ?_, ?_⟩
  · intro hg hw hnone
    exact hwg hg hw hnone (generic_code_domain E) rfl
  · intro hg hn hnone
    exact hng n hg hn hnone (generic_code_domain E) rfl
  · intro hn hnone
    exact hnw n hn hnone (win32_code_domain E) rfl
  · intro hg hn hm hne gn gm wn wm
    refine ⟨hng n hg hn gn (generic_code_domain E) rfl,
      hng m hg hm gm (generic_code_domain E) rfl,
      hnw n hn wn (win32_code_domain E) rfl,
      hnw m hm wm (win32_code_domain E) rfl, ?_⟩
    have h := nt_strictly_equivalent_iff E n m
    cases hb : (nt_code E n).strictly_equivalent (nt_code E m) with
    | false => rfl
    | true => exact absurd (h.mp hb) hne

/-- C22 at the scenario tables: the OS-error value 7 and the kernel values -1 and -2 have
no table entry. -/
theorem unknown_sentinel_strictly_equivalent_witness :
    (win32_code scenario_env 7).strictly_equivalent
      (generic_code scenario_env errc_unknown) = true ∧
    ((nt_code scenario_env (-1)).strictly_equivalent
        (generic_code scenario_env errc_unknown) = true ∧
      (nt_code scenario_env (-2)).strictly_equivalent
        (generic_code scenario_env errc_unknown) = true ∧
      (nt_code scenario_env (-1)).strictly_equivalent
        (win32_code scenario_env 0xFFFFFFFF) = true ∧
      (nt_code scenario_env (-2)).strictly_equivalent
        (win32_code scenario_env 0xFFFFFFFF) = true ∧
      (nt_code scenario_env (-1)).strictly_equivalent (nt_code scenario_env (-2)) = false) :=
  ⟨(unknown_sentinel_strictly_equivalent scenario_env 7 (-1) (-2)).1
      (by decide) (by decide) (by decide),
   (unknown_sentinel_strictly_equivalent scenario_env 7 (-1) (-2)).2.2.2
      (by decide) (by decide) (by decide) (by decide) (by decide) (by decide) (by decide)
      (by decide)⟩

/-! ## C23 -/

/-- C23: every succeeding kernel code translates to success. For every kernel value
`v ≥ 0` and whatever the tables hold, `_nt_code_to_errno(v)` and
`_nt_code_to_win32_code(v)` are 0, `_generic_code` returns the generic value 0, so the
generic conversion of the kernel code is the generic success value, and the kernel code is strictly equivalent to the OS-error code 0 and to
the generic code 0; hence a kernel code that is not a failure converts to a generic code
that is not a failure. -/
theorem nt_success_translates (E : Env) (v : Int) (hv : 0 ≤ v) :
    _nt_code_domain._nt_code_to_errno E v = 0 ∧
    _nt_code_domain._nt_code_to_win32_code E v = 0 ∧
    (∀ F : Env, _nt_code_domain._nt_code_to_errno F v = 0 ∧
      _nt_code_domain._nt_code_to_win32_code F v = 0) ∧
    _nt_code_domain._generic_code E ⟨nt_id, v⟩ = 0 ∧
    (nt_code E v).as_generic = some 0 ∧
    (nt_code E v).strictly_equivalent (win32_code E 0) = true ∧
    (E.generic_id ≠ nt_id →
      (nt_code E v).strictly_equivalent (generic_code E 0) = true) ∧
    (∀ x : Int, (nt_code E x).failure = false →
      (nt_code E x).as_generic = some 0 ∧ (generic_code E 0).failure = false) := by
  have herrno : ∀ (F : Env) (x : Int), 0 ≤ x →
      _nt_code_domain._nt_code_to_errno F x = 0 := by
    intro F x hx
    simp [_nt_code_domain._nt_code_to_errno, hx]
  have hwin32 : ∀ (F : Env) (x : Int), 0 ≤ x →
      _nt_code_domain._nt_code_to_win32_code F x = 0 := by
    intro F x hx
    simp [_nt_code_domain._nt_code_to_win32_code, hx]
  have hgen : ∀ x : Int, 0 ≤ x → (nt_code E x).as_generic = some 0 := by
    intro x hx
    unfold nt_code
    rw [as_generic_of_value, nt_code_domain_generic_code]
    show some (_nt_code_domain._nt_code_to_errno E x) = some 0
    rw [herrno E x hx]
  have hsw : ∀ d : status_code_domain, d.id = win32_id →
      (nt_code E v).strictly_equivalent (status_code.of_value d ((0 : Nat) : Int))
        = true := by
    intro d hd
    unfold nt_code
    rw [strictly_equivalent_of_value, nt_code_domain_equivalent, hd, nt_equivalent_iff]
    right
    refine ⟨win32_id_ne_nt_id, Or.inr ⟨rfl, ?_⟩⟩
    show ((0 : Nat) : Int) = (_nt_code_domain._nt_code_to_win32_code E v : Int)
    rw [hwin32 E v hv]
  have hsg : E.generic_id ≠ nt_id → ∀ d : status_code_domain, d.id = E.generic_id →
      (nt_code E v).strictly_equivalent (status_code.of_value d 0) = true := by
    intro hg d hd
    unfold nt_code
    rw [strictly_equivalent_of_value, nt_code_domain_equivalent, hd, nt_equivalent_iff]
    right
    refine ⟨hg, Or.inl ⟨rfl, ?_⟩⟩
    show (0 : Int) = _nt_code_domain._nt_code_to_errno E v
    rw [herrno E v hv]
  refine ⟨herrno E v hv, hwin32 E v hv, fun F => ⟨herrno F v hv, hwin32 F v hv⟩,
    herrno E v hv, hgen v hv, hsw (win32_code_domain E) rfl,
    fun hg => hsg hg (generic_code_domain E) rfl, ?_⟩
  intro x hx
  have hx0 : 0 ≤ x := by
    unfold nt_code at hx
    rw [failure_of_value, nt_code_domain_failure] at hx
    simpa [_nt_code_domain._failure] using hx
  exact ⟨hgen x hx0, rfl⟩

/-- C23 at the kernel value 5 with tables that have a case for every value: the
translations of 5 are 0, not the 13 and 5 of the tables. -/
theorem nt_success_translates_witness :
    _nt_code_domain._nt_code_to_errno saturated_env 5 = 0 ∧
    _nt_code_domain._nt_code_to_win32_code saturated_env 5 = 0 ∧
    (nt_code saturated_env 5).as_generic = some 0 ∧
    (nt_code saturated_env 5).strictly_equivalent (win32_code saturated_env 0) = true ∧
    (nt_code saturated_env 5).strictly_equivalent (generic_code saturated_env 0) = true ∧
    saturated_env.nt_code_to_generic_code (to_unsigned 5) = some 13 ∧
    saturated_env.nt_code_to_win32_code (to_unsigned 5) = some 5 :=
  ⟨(nt_success_translates saturated_env 5 (by decide)).1,
   (nt_success_translates saturated_env 5 (by decide)).2.1,
   (nt_success_translates saturated_env 5 (by decide)).2.2.2.2.1,
   (nt_success_translates saturated_env 5 (by decide)).2.2.2.2.2.1,
   (nt_success_translates saturated_env 5 (by decide)).2.2.2.2.2.2.1 (by decide),
   rfl, rfl⟩

end system_error2
